import Mathlib

/-!
# Verification of the GameDataGen world-consistency core

This file gives a shallow embedding, in Lean 4, of the three core components of
the GameDataGen repository — the spatial placement and collision engine
(`src/gamedatagen/core/spatial_system.py`), the relationship graph
(`src/gamedatagen/core/knowledge_graph.py`) and the XP-budget planner
(`src/gamedatagen/core/leveling_system.py`) — together with theorems settling
the frozen list of claims about them.

Modelling conventions:

* Python `float` coordinates are modelled as exact rationals (`ℚ`); the float
  computations in the source contain no operation that is sensitive to IEEE
  rounding for the properties proved here, and every geometric test in the
  source (`<=`-comparisons, `floor`) is modelled exactly.
* Python `dict` (which preserves insertion order) is modelled as an ordered
  association list `List (key × value)`; assignment replaces the value of the
  first matching key in place or appends a new entry at the end, `del` removes
  the first matching entry, exactly as a Python dict with unique keys behaves.
* Python `set` iteration order is unspecified; candidate sets are modelled as
  deduplicated lists.  All theorems about results built from a candidate set
  are membership statements, which do not depend on the iteration order.
* `Vector3.distance_to` uses `np.sqrt`; it is modelled with `Real.sqrt` over
  the exact rational squared distance, and the executable comparison
  `Vector3.distLe` (comparison of squares) is proved equivalent to the
  source's `sqrt dist2 <= radius` comparison in `distLe_iff`.
-/

namespace GameDataGen

/-! ## Geometry primitives (`spatial_system.py`, `Vector3` / `BoundingBox`) -/

/-- `Vector3`: 3D vector with float (here: exact rational) components. -/
structure Vector3 where
  x : ℚ
  y : ℚ
  z : ℚ
deriving DecidableEq

/-- Component-wise `__add__` of `Vector3`. -/
def Vector3.add (a b : Vector3) : Vector3 := ⟨a.x + b.x, a.y + b.y, a.z + b.z⟩

/-- Component-wise `__sub__` of `Vector3`. -/
def Vector3.sub (a b : Vector3) : Vector3 := ⟨a.x - b.x, a.y - b.y, a.z - b.z⟩

/-- The squared Euclidean distance between two vectors — the argument of
`np.sqrt` in `Vector3.distance_to`. -/
def Vector3.dist2 (a b : Vector3) : ℚ :=
  (a.x - b.x) ^ 2 + (a.y - b.y) ^ 2 + (a.z - b.z) ^ 2

/-- `Vector3.distance_to`: Euclidean distance,
`np.sqrt((x1-x2)**2 + (y1-y2)**2 + (z1-z2)**2)`. -/
noncomputable def Vector3.distance_to (a b : Vector3) : ℝ :=
  Real.sqrt ((a.dist2 b : ℚ) : ℝ)

/-- Executable form of the source's comparison `distance_to(...) <= r`:
comparing against the square.  Proved equivalent to the `Real.sqrt`
comparison in `distLe_iff`. -/
def Vector3.distLe (a b : Vector3) (r : ℚ) : Bool :=
  decide (0 ≤ r ∧ a.dist2 b ≤ r ^ 2)

/-- `BoundingBox`: axis-aligned 3D box. -/
structure BoundingBox where
  min : Vector3
  max : Vector3
deriving DecidableEq

/-- `BoundingBox.contains`: inclusive point containment test. -/
def BoundingBox.contains (b : BoundingBox) (p : Vector3) : Bool :=
  decide (b.min.x ≤ p.x ∧ p.x ≤ b.max.x ∧
          b.min.y ≤ p.y ∧ p.y ≤ b.max.y ∧
          b.min.z ≤ p.z ∧ p.z ≤ b.max.z)

/-- `BoundingBox.intersects`: inclusive box intersection test (boxes that
merely touch count as intersecting). -/
def BoundingBox.intersects (b other : BoundingBox) : Bool :=
  decide (b.min.x ≤ other.max.x ∧ b.max.x ≥ other.min.x ∧
          b.min.y ≤ other.max.y ∧ b.max.y ≥ other.min.y ∧
          b.min.z ≤ other.max.z ∧ b.max.z ≥ other.min.z)

/-- The data-model invariant on boxes stated by the specification: callers
must construct boxes with `min ≤ max` on every axis (the engine does not
normalize). -/
def boxValid (b : BoundingBox) : Prop :=
  b.min.x ≤ b.max.x ∧ b.min.y ≤ b.max.y ∧ b.min.z ≤ b.max.z

instance (b : BoundingBox) : Decidable (boxValid b) := by
  unfold boxValid; exact inferInstance

/-- `PlacedObject`: object placed in 3D space.  The free-form `metadata`
map is never read by any spatial operation and is omitted. -/
structure PlacedObject where
  id : String
  entity_type : String
  position : Vector3
  bounds : BoundingBox
deriving DecidableEq

/-- `PlacementRule`: constraints for procedural placement.  The `biome`,
`near_water` and `avoid_slopes` fields are declared in the source but never
read by the placement geometry logic and are omitted. -/
structure PlacementRule where
  name : String
  min_distance : ℚ
  max_distance : Option ℚ
  height_range : Option (ℚ × ℚ)
deriving DecidableEq

/-! ## Ordered-dictionary model

Python dicts preserve insertion order: assignment to an existing key replaces
the value in place, assignment to a new key appends, and `del` removes the
entry.  `dictLookup`, `dictInsert` and `dictErase` model exactly that on an
association list. -/

/-- Lookup of the first entry with the given key (`d[k]` / `d.get(k)`). -/
def dictLookup {α β : Type} [DecidableEq α] : List (α × β) → α → Option β
  | [], _ => none
  | (k, v) :: rest, a => if k = a then some v else dictLookup rest a

/-- Dict assignment `d[k] = v`: replace the value of the first entry with key
`k` in place, or append a new entry. -/
def dictInsert {α β : Type} [DecidableEq α] : List (α × β) → α → β → List (α × β)
  | [], a, b => [(a, b)]
  | (k, v) :: rest, a, b =>
      if k = a then (a, b) :: rest else (k, v) :: dictInsert rest a b

/-- Dict deletion `del d[k]`: remove the first entry with key `k`. -/
def dictErase {α β : Type} [DecidableEq α] : List (α × β) → α → List (α × β)
  | [], _ => []
  | (k, v) :: rest, a => if k = a then rest else (k, v) :: dictErase rest a

/-- Python `list.remove(x)`: remove the first occurrence of `x`. -/
def removeFirst {α : Type} [DecidableEq α] : List α → α → List α
  | [], _ => []
  | x :: xs, a => if x = a then xs else x :: removeFirst xs a

/-! ## SpatialGrid state and operations -/

/-- A grid cell coordinate, `(int, int, int)`. -/
abbrev Cell := ℤ × ℤ × ℤ

/-- `SpatialGrid` state: world bounds, cell size, the `objects` dict
(id → PlacedObject) and the spatial hash `grid`
(cell → list of ids whose bounds overlap the cell). -/
structure SpatialGrid where
  bounds : BoundingBox
  cell_size : ℚ
  objects : List (String × PlacedObject)
  grid : List (Cell × List String)
deriving DecidableEq

/-- The inclusive integer range `[a, b]` (the values taken by
`range(a, b + 1)`). -/
def intRange (a b : ℤ) : List ℤ :=
  (List.range (b + 1 - a).toNat).map (fun (i : ℕ) => a + (i : ℤ))

/-- `SpatialGrid._get_cells`: all grid cells overlapping `bounds`, the
product of the inclusive per-axis ranges `floor(min/cell_size) ..
floor(max/cell_size)`. -/
def getCells (b : BoundingBox) (cellSize : ℚ) : List Cell :=
  (intRange ⌊b.min.x / cellSize⌋ ⌊b.max.x / cellSize⌋).flatMap fun cx =>
    (intRange ⌊b.min.y / cellSize⌋ ⌊b.max.y / cellSize⌋).flatMap fun cy =>
      (intRange ⌊b.min.z / cellSize⌋ ⌊b.max.z / cellSize⌋).map fun cz => (cx, cy, cz)

/-- The id list stored in a cell bucket (`self.grid[cell]`, defaulting to
empty when the bucket is absent). -/
def bucketIds (g : SpatialGrid) (c : Cell) : List String :=
  (dictLookup g.grid c).getD []

/-- The union of the ids of all buckets of the given cells — the `candidates`
set of `check_collision` / `find_nearby`.  A Python `set` iterates in
unspecified order; the canonical deduplicated list is used, and all theorems
built on it are order-insensitive membership statements. -/
def candidateIds (g : SpatialGrid) (cells : List Cell) : List String :=
  (cells.flatMap (bucketIds g)).dedup

/-- `SpatialGrid.check_collision(bounds, exclude_id)`: broad phase over cell
buckets, then `BoundingBox.intersects` against each candidate, skipping
`exclude_id`.  The source indexes `self.objects[obj_id]` directly (a
`KeyError` if absent); on every state reached through the class API the
lookup succeeds (see `ReachSG` and `WFSG.buckets_eq`), so the `none` branch
below is never exercised there. -/
def checkCollision (g : SpatialGrid) (bounds : BoundingBox)
    (exclude_id : Option String) : Bool :=
  let cells := getCells bounds g.cell_size
  (candidateIds g cells).any fun oid =>
    if some oid = exclude_id then false
    else
      match dictLookup g.objects oid with
      | some obj => bounds.intersects obj.bounds
      | none => false

/-- One step of `add_object`'s spatial-hash loop: create the bucket if
absent, then append the id (`self.grid[cell].append(obj.id)`). -/
def addCellsStep (i : String) (acc : SpatialGrid) (c : Cell) : SpatialGrid :=
  { acc with grid := dictInsert acc.grid c (bucketIds acc c ++ [i]) }

/-- The spatial-hash loop of `add_object` over all cells of the bounds. -/
def addCells (g : SpatialGrid) (cells : List Cell) (i : String) : SpatialGrid :=
  cells.foldl (addCellsStep i) g

/-- `SpatialGrid.add_object`: reject (returning the state unchanged and
`false`) when `check_collision(obj.bounds, exclude_id=obj.id)` reports a
hit; otherwise store the object and append its id to every overlapping cell
bucket, returning `true`. -/
def addObject (g : SpatialGrid) (obj : PlacedObject) : SpatialGrid × Bool :=
  if checkCollision g obj.bounds (some obj.id) then (g, false)
  else
    let g1 := { g with objects := dictInsert g.objects obj.id obj }
    (addCells g1 (getCells obj.bounds g.cell_size) obj.id, true)

/-- One step of `remove_object`'s spatial-hash loop: if the bucket exists and
contains the id, remove the first occurrence, deleting the bucket when it
becomes empty. -/
def removeCellsStep (i : String) (acc : SpatialGrid) (c : Cell) : SpatialGrid :=
  match dictLookup acc.grid c with
  | none => acc
  | some ids =>
      if i ∈ ids then
        if removeFirst ids i = [] then { acc with grid := dictErase acc.grid c }
        else { acc with grid := dictInsert acc.grid c (removeFirst ids i) }
      else acc

/-- The spatial-hash loop of `remove_object` over all cells of the bounds. -/
def removeCells (g : SpatialGrid) (cells : List Cell) (i : String) : SpatialGrid :=
  cells.foldl (removeCellsStep i) g

/-- `SpatialGrid.remove_object`: `false` when the id is absent, otherwise
remove the id from every cell bucket of its bounds and delete it from
`objects`. -/
def removeObject (g : SpatialGrid) (obj_id : String) : SpatialGrid × Bool :=
  match dictLookup g.objects obj_id with
  | none => (g, false)
  | some obj =>
      let g1 := removeCells g (getCells obj.bounds g.cell_size) obj_id
      ({ g1 with objects := dictErase g1.objects obj_id }, true)

/-- The `continue` condition of `find_nearby`'s type filter:
`if entity_type and obj.entity_type != entity_type`.  Note the Python
truthiness test: an *empty-string* filter is falsy and therefore skips
nothing, exactly like `None`. -/
def typeSkip (entity_type : Option String) (ty : String) : Bool :=
  match entity_type with
  | none => false
  | some t => if t = "" then false else decide (ty ≠ t)

/-- `SpatialGrid.find_nearby(position, radius, entity_type)`: cube search
region of half-side `radius`, broad phase over cell buckets, then the true
Euclidean distance test `position.distance_to(obj.position) <= radius`
(see `distLe_iff`) and the optional type filter. -/
def findNearby (g : SpatialGrid) (position : Vector3) (radius : ℚ)
    (entity_type : Option String) : List PlacedObject :=
  let searchBounds : BoundingBox :=
    ⟨⟨position.x - radius, position.y - radius, position.z - radius⟩,
     ⟨position.x + radius, position.y + radius, position.z + radius⟩⟩
  let cells := getCells searchBounds g.cell_size
  (candidateIds g cells).filterMap fun oid =>
    match dictLookup g.objects oid with
    | none => none
    | some obj =>
        if typeSkip entity_type obj.entity_type then none
        else if position.distLe obj.position radius then some obj
        else none

/-- The candidate bounding box built by `find_placement` at a drawn position:
horizontal extent `size.x`/`size.z` centered on the position, vertical extent
from `position.y` to `position.y + size.y`. -/
def candidateBox (position size : Vector3) : BoundingBox :=
  ⟨position.sub ⟨size.x / 2, 0, size.z / 2⟩,
   position.add ⟨size.x / 2, size.y, size.z / 2⟩⟩

/-- `SpatialGrid.find_placement(entity_id, entity_type, size, rule,
max_attempts)`: rejection sampling.  Each attempt draws uniform random
`x`, `z` (and `y` from `rule.height_range` or the grid's y-range); the draws
of the successive attempts are abstracted as the input list `draws` (one
`(x, z, y)` triple per attempt, so `draws.length` plays the role of
`max_attempts`).  A candidate is rejected when its box collides, when
`min_distance > 0` and some object lies within `min_distance`, or when
`max_distance` is set and no object lies within `max_distance`; the first
surviving candidate is returned, and exhausting the attempt budget returns
`none` (the function never raises and never mutates the grid — it is a pure
query).  The `entity_id` and `entity_type` parameters are never read by the
source's body and are omitted here. -/
def findPlacement (g : SpatialGrid) (size : Vector3) (rule : PlacementRule) :
    List (ℚ × ℚ × ℚ) → Option Vector3
  | [] => none
  | (x, z, y) :: rest =>
      let position : Vector3 := ⟨x, y, z⟩
      let bounds := candidateBox position size
      if checkCollision g bounds none then findPlacement g size rule rest
      else if 0 < rule.min_distance ∧ findNearby g position rule.min_distance none ≠ [] then
        findPlacement g size rule rest
      else
        match rule.max_distance with
        | some md =>
            if findNearby g position md none = [] then findPlacement g size rule rest
            else some position
        | none => some position

/-! ## Lemmas about the ordered-dictionary model -/

section DictLemmas

variable {α β : Type} [DecidableEq α]

theorem dictLookup_cons (k : α) (v : β) (d : List (α × β)) (a : α) :
    dictLookup ((k, v) :: d) a = if k = a then some v else dictLookup d a := rfl

theorem dictLookup_eq_none_iff (d : List (α × β)) (a : α) :
    dictLookup d a = none ↔ ∀ p ∈ d, p.1 ≠ a := by
  induction d with
  | nil => simp [dictLookup]
  | cons p rest ih =>
      obtain ⟨k, v⟩ := p
      by_cases h : k = a <;> simp [dictLookup_cons, h, ih]

theorem dictLookup_mem {d : List (α × β)} {a : α} {v : β}
    (h : dictLookup d a = some v) : (a, v) ∈ d := by
  induction d with
  | nil => simp [dictLookup] at h
  | cons p rest ih =>
      obtain ⟨k, w⟩ := p
      rw [dictLookup_cons] at h
      by_cases hk : k = a
      · simp [hk] at h
        simp [hk, h]
      · simp [hk] at h
        exact List.mem_cons_of_mem _ (ih h)

theorem dictLookup_of_mem_nodup {d : List (α × β)} {a : α} {v : β}
    (hnd : (d.map Prod.fst).Nodup) (h : (a, v) ∈ d) : dictLookup d a = some v := by
  induction d with
  | nil => simp at h
  | cons p rest ih =>
      obtain ⟨k, w⟩ := p
      simp only [List.map_cons, List.nodup_cons] at hnd
      rcases List.mem_cons.mp h with h1 | h1
      · cases h1
        simp [dictLookup_cons]
      · have hka : k ≠ a := by
          intro hk
          exact hnd.1 (hk ▸ (List.mem_map.mpr ⟨(a, v), h1, rfl⟩))
        simp [dictLookup_cons, hka, ih hnd.2 h1]

theorem dictInsert_of_lookup_none {d : List (α × β)} {a : α}
    (h : dictLookup d a = none) (v : β) : dictInsert d a v = d ++ [(a, v)] := by
  induction d with
  | nil => simp [dictInsert]
  | cons p rest ih =>
      obtain ⟨k, w⟩ := p
      rw [dictLookup_cons] at h
      by_cases hk : k = a
      · simp [hk] at h
      · simp only [dictInsert, if_neg hk]
        simp [hk] at h
        simp [ih h]

theorem dictLookup_insert_self (d : List (α × β)) (a : α) (v : β) :
    dictLookup (dictInsert d a v) a = some v := by
  induction d with
  | nil => simp [dictInsert, dictLookup]
  | cons p rest ih =>
      obtain ⟨k, w⟩ := p
      by_cases hk : k = a <;> simp [dictInsert, dictLookup_cons, hk, ih]

theorem dictLookup_insert_ne (d : List (α × β)) (a b : α) (v : β) (h : b ≠ a) :
    dictLookup (dictInsert d a v) b = dictLookup d b := by
  induction d with
  | nil => simp [dictInsert, dictLookup_cons, Ne.symm h]
  | cons p rest ih =>
      obtain ⟨k, w⟩ := p
      by_cases hk : k = a
      · subst hk
        simp [dictInsert, dictLookup_cons, Ne.symm h]
      · simp [dictInsert, hk, dictLookup_cons, ih]

theorem dictInsert_insert_self (d : List (α × β)) (a : α) (v w : β) :
    dictInsert (dictInsert d a v) a w = dictInsert d a w := by
  induction d with
  | nil => simp [dictInsert]
  | cons p rest ih =>
      obtain ⟨k, u⟩ := p
      by_cases hk : k = a <;> simp [dictInsert, hk, ih]

theorem dictInsert_lookup_self {d : List (α × β)} {a : α} {v : β}
    (h : dictLookup d a = some v) : dictInsert d a v = d := by
  induction d with
  | nil => simp [dictLookup] at h
  | cons p rest ih =>
      obtain ⟨k, w⟩ := p
      rw [dictLookup_cons] at h
      by_cases hk : k = a
      · simp [hk] at h
        simp [dictInsert, hk, h]
      · simp [hk] at h
        simp [dictInsert, hk, ih h]

theorem dictErase_append_of_lookup_none {d : List (α × β)} {a : α}
    (h : dictLookup d a = none) (v : β) : dictErase (d ++ [(a, v)]) a = d := by
  induction d with
  | nil => simp [dictErase]
  | cons p rest ih =>
      obtain ⟨k, w⟩ := p
      rw [dictLookup_cons] at h
      by_cases hk : k = a
      · simp [hk] at h
      · simp [hk] at h
        simp [dictErase, hk, ih h]

theorem dictLookup_erase_ne (d : List (α × β)) (a b : α) (h : b ≠ a) :
    dictLookup (dictErase d a) b = dictLookup d b := by
  induction d with
  | nil => simp [dictErase]
  | cons p rest ih =>
      obtain ⟨k, w⟩ := p
      by_cases hk : k = a
      · subst hk
        simp [dictErase, dictLookup_cons, Ne.symm h]
      · simp [dictErase, hk, dictLookup_cons, ih]

theorem dictErase_of_lookup_none {d : List (α × β)} {a : α}
    (h : dictLookup d a = none) : dictErase d a = d := by
  induction d with
  | nil => simp [dictErase]
  | cons p rest ih =>
      obtain ⟨k, w⟩ := p
      rw [dictLookup_cons] at h
      by_cases hk : k = a
      · simp [hk] at h
      · simp [hk] at h
        simp [dictErase, hk, ih h]

theorem keys_dictInsert_of_none {d : List (α × β)} {a : α}
    (h : dictLookup d a = none) (v : β) :
    (dictInsert d a v).map Prod.fst = d.map Prod.fst ++ [a] := by
  rw [dictInsert_of_lookup_none h]
  simp

theorem keys_dictInsert_of_some {d : List (α × β)} {a : α} {w : β}
    (h : dictLookup d a = some w) (v : β) :
    (dictInsert d a v).map Prod.fst = d.map Prod.fst := by
  induction d with
  | nil => simp [dictLookup] at h
  | cons p rest ih =>
      obtain ⟨k, u⟩ := p
      rw [dictLookup_cons] at h
      by_cases hk : k = a
      · simp [dictInsert, hk]
      · simp [hk] at h
        simp [dictInsert, hk, ih h]

theorem keys_dictErase (d : List (α × β)) (a : α) :
    (dictErase d a).map Prod.fst = removeFirst (d.map Prod.fst) a := by
  induction d with
  | nil => simp [dictErase, removeFirst]
  | cons p rest ih =>
      obtain ⟨k, w⟩ := p
      by_cases hk : k = a <;> simp [dictErase, removeFirst, hk, ih]

theorem dictErase_eq_filter_of_nodup {d : List (α × β)} {a : α}
    (hnd : (d.map Prod.fst).Nodup) :
    dictErase d a = d.filter (fun p => decide (p.1 ≠ a)) := by
  induction d with
  | nil => simp [dictErase]
  | cons p rest ih =>
      obtain ⟨k, w⟩ := p
      simp only [List.map_cons, List.nodup_cons] at hnd
      by_cases hk : k = a
      · subst hk
        have h1 : dictErase ((k, w) :: rest) k = rest := by simp [dictErase]
        have h2 : rest.filter (fun p => decide (p.1 ≠ k)) = rest :=
          List.filter_eq_self.mpr (fun q hq => by
            simp only [decide_eq_true_eq]
            exact fun hqk => hnd.1 (hqk ▸ (List.mem_map.mpr ⟨q, hq, rfl⟩)))
        rw [h1, List.filter_cons, if_neg (by simp), h2]
      · have h1 : dictErase ((k, w) :: rest) a = (k, w) :: dictErase rest a := by
          simp [dictErase, hk]
        rw [h1, List.filter_cons, if_pos (by simp [hk]), ih hnd.2]

theorem dictLookup_erase_self_of_nodup {d : List (α × β)} {a : α}
    (hnd : (d.map Prod.fst).Nodup) : dictLookup (dictErase d a) a = none := by
  rw [dictErase_eq_filter_of_nodup hnd, dictLookup_eq_none_iff]
  intro p hp
  have := List.of_mem_filter hp
  simpa using this

end DictLemmas

/-! ## Lemmas about `removeFirst` -/

section RemoveFirstLemmas

variable {α : Type} [DecidableEq α]

theorem removeFirst_of_not_mem {l : List α} {a : α} (h : a ∉ l) :
    removeFirst l a = l := by
  induction l with
  | nil => rfl
  | cons x xs ih =>
      simp only [List.mem_cons] at h
      push_neg at h
      simp [removeFirst, Ne.symm h.1, ih h.2]

theorem removeFirst_append_self {l : List α} {a : α} (h : a ∉ l) :
    removeFirst (l ++ [a]) a = l := by
  induction l with
  | nil => simp [removeFirst]
  | cons x xs ih =>
      simp only [List.mem_cons] at h
      push_neg at h
      simp [removeFirst, Ne.symm h.1, ih h.2]

theorem removeFirst_sublist (l : List α) (a : α) : List.Sublist (removeFirst l a) l := by
  induction l with
  | nil => simp [removeFirst]
  | cons x xs ih =>
      by_cases hx : x = a
      · simp only [removeFirst, if_pos hx]
        exact List.sublist_cons_self x xs
      · simp only [removeFirst, if_neg hx]
        exact ih.cons₂ x

theorem mem_removeFirst_of_ne {l : List α} {a b : α} (h : b ≠ a) :
    b ∈ removeFirst l a ↔ b ∈ l := by
  induction l with
  | nil => simp [removeFirst]
  | cons x xs ih =>
      by_cases hx : x = a
      · simp [removeFirst, hx, h]
      · simp [removeFirst, hx, ih]

theorem map_fst_filter_ne_eq_removeFirst {β : Type} (m : List (α × β)) (a : α)
    (hnd : (m.map Prod.fst).Nodup) :
    (m.filter (fun p => decide (p.1 ≠ a))).map Prod.fst =
      removeFirst (m.map Prod.fst) a := by
  induction m with
  | nil => simp [removeFirst]
  | cons p rest ih =>
      obtain ⟨k, w⟩ := p
      simp only [List.map_cons, List.nodup_cons] at hnd
      by_cases hk : k = a
      · subst hk
        have h2 : rest.filter (fun p => decide (p.1 ≠ k)) = rest :=
          List.filter_eq_self.mpr (fun q hq => by
            simp only [decide_eq_true_eq]
            exact fun hqk => hnd.1 (hqk ▸ (List.mem_map.mpr ⟨q, hq, rfl⟩)))
        rw [List.filter_cons, if_neg (by simp), h2, List.map_cons, removeFirst,
          if_pos rfl]
      · rw [List.filter_cons, if_pos (by simp [hk]), List.map_cons, List.map_cons,
          removeFirst, if_neg hk, ih hnd.2]

end RemoveFirstLemmas

/-! ## Geometry lemmas -/

theorem mem_intRange {a b k : ℤ} : k ∈ intRange a b ↔ a ≤ k ∧ k ≤ b := by
  unfold intRange
  simp only [List.mem_map, List.mem_range]
  constructor
  · rintro ⟨i, hi, rfl⟩
    omega
  · rintro ⟨h1, h2⟩
    exact ⟨(k - a).toNat, by omega, by omega⟩

theorem nodup_intRange (a b : ℤ) : (intRange a b).Nodup := by
  unfold intRange
  refine List.Nodup.map ?_ (List.nodup_range _)
  intro i j hij
  dsimp only at hij
  omega

theorem mem_getCells {b : BoundingBox} {cs : ℚ} {c : Cell} :
    c ∈ getCells b cs ↔
      (⌊b.min.x / cs⌋ ≤ c.1 ∧ c.1 ≤ ⌊b.max.x / cs⌋) ∧
      (⌊b.min.y / cs⌋ ≤ c.2.1 ∧ c.2.1 ≤ ⌊b.max.y / cs⌋) ∧
      (⌊b.min.z / cs⌋ ≤ c.2.2 ∧ c.2.2 ≤ ⌊b.max.z / cs⌋) := by
  obtain ⟨cx, cy, cz⟩ := c
  unfold getCells
  simp only [List.mem_flatMap, List.mem_map, mem_intRange]
  constructor
  · rintro ⟨x, hx, y, hy, z, hz, h⟩
    rw [Prod.mk.injEq, Prod.mk.injEq] at h
    obtain ⟨rfl, rfl, rfl⟩ := h
    exact ⟨hx, hy, hz⟩
  · rintro ⟨hx, hy, hz⟩
    exact ⟨cx, hx, cy, hy, cz, hz, rfl⟩

theorem nodup_getCells (b : BoundingBox) (cs : ℚ) : (getCells b cs).Nodup := by
  unfold getCells
  rw [List.nodup_flatMap]
  refine ⟨fun cx _ => ?_, ?_⟩
  · rw [List.nodup_flatMap]
    refine ⟨fun cy _ => ?_, ?_⟩
    · exact (nodup_intRange _ _).map (fun z1 z2 h => by simpa using h)
    · refine (nodup_intRange _ _).imp ?_
      intro y1 y2 hne t ht1 ht2
      simp only [List.mem_map] at ht1 ht2
      obtain ⟨z1, _, rfl⟩ := ht1
      obtain ⟨z2, _, h2⟩ := ht2
      rw [Prod.mk.injEq, Prod.mk.injEq] at h2
      exact hne h2.2.1.symm
  · refine (nodup_intRange _ _).imp ?_
    intro x1 x2 hne t ht1 ht2
    simp only [List.mem_flatMap, List.mem_map] at ht1 ht2
    obtain ⟨y1, _, z1, _, rfl⟩ := ht1
    obtain ⟨y2, _, z2, _, h2⟩ := ht2
    rw [Prod.mk.injEq, Prod.mk.injEq] at h2
    exact hne h2.1.symm

theorem floor_div_mono {a b cs : ℚ} (hcs : 0 < cs) (h : a ≤ b) :
    ⌊a / cs⌋ ≤ ⌊b / cs⌋ :=
  Int.floor_le_floor ((div_le_div_iff_of_pos_right hcs).mpr h)

/-- The key broad-phase completeness fact: two valid boxes that intersect
share at least one grid cell. -/
theorem exists_common_cell {b1 b2 : BoundingBox} {cs : ℚ} (hcs : 0 < cs)
    (h1 : boxValid b1) (h2 : boxValid b2)
    (hint : b1.intersects b2 = true) :
    ∃ c : Cell, c ∈ getCells b1 cs ∧ c ∈ getCells b2 cs := by
  rw [BoundingBox.intersects, decide_eq_true_eq] at hint
  obtain ⟨hx1, hx2, hy1, hy2, hz1, hz2⟩ := hint
  obtain ⟨hv1x, hv1y, hv1z⟩ := h1
  obtain ⟨hv2x, hv2y, hv2z⟩ := h2
  refine ⟨(⌊max b1.min.x b2.min.x / cs⌋, ⌊max b1.min.y b2.min.y / cs⌋,
            ⌊max b1.min.z b2.min.z / cs⌋), ?_, ?_⟩ <;>
    rw [mem_getCells] <;>
    refine ⟨⟨?_, ?_⟩, ⟨?_, ?_⟩, ⟨?_, ?_⟩⟩ <;>
    apply floor_div_mono hcs <;>
    simp [le_max_iff, max_le_iff] <;>
    tauto

/-- The executable comparison `distLe` agrees with the source's comparison
`position.distance_to(obj.position) <= radius`. -/
theorem distLe_iff (a b : Vector3) (r : ℚ) :
    a.distLe b r = true ↔ a.distance_to b ≤ (r : ℝ) := by
  rw [Vector3.distLe, Vector3.distance_to, decide_eq_true_eq, Real.sqrt_le_iff]
  constructor
  · rintro ⟨hr, hd⟩
    exact ⟨by exact_mod_cast hr, by exact_mod_cast hd⟩
  · rintro ⟨hr, hd⟩
    exact ⟨by exact_mod_cast hr, by exact_mod_cast hd⟩

/-- A point within (squared) distance `r` of `a` lies in the cube of
half-side `r` centered on `a`, component-wise. -/
theorem dist2_axis_bounds {a b : Vector3} {r : ℚ} (hr : 0 ≤ r)
    (h : a.dist2 b ≤ r ^ 2) :
    a.x - r ≤ b.x ∧ b.x ≤ a.x + r ∧ a.y - r ≤ b.y ∧ b.y ≤ a.y + r ∧
      a.z - r ≤ b.z ∧ b.z ≤ a.z + r := by
  rw [Vector3.dist2] at h
  refine ⟨?_, ?_, ?_, ?_, ?_, ?_⟩ <;>
    nlinarith [sq_nonneg (a.x - b.x), sq_nonneg (a.y - b.y), sq_nonneg (a.z - b.z),
      sq_nonneg (a.x - b.x - r), sq_nonneg (a.x - b.x + r),
      sq_nonneg (a.y - b.y - r), sq_nonneg (a.y - b.y + r),
      sq_nonneg (a.z - b.z - r), sq_nonneg (a.z - b.z + r)]

/-- The cell containing a point belongs to the cell range of every box that
contains the point. -/
theorem cell_of_point_mem_getCells {b : BoundingBox} {cs : ℚ} {p : Vector3}
    (hcs : 0 < cs) (hc : b.contains p = true) :
    (⌊p.x / cs⌋, ⌊p.y / cs⌋, ⌊p.z / cs⌋) ∈ getCells b cs := by
  rw [BoundingBox.contains, decide_eq_true_eq] at hc
  obtain ⟨h1, h2, h3, h4, h5, h6⟩ := hc
  rw [mem_getCells]
  exact ⟨⟨floor_div_mono hcs h1, floor_div_mono hcs h2⟩,
    ⟨floor_div_mono hcs h3, floor_div_mono hcs h4⟩,
    ⟨floor_div_mono hcs h5, floor_div_mono hcs h6⟩⟩

/-! ## Well-formedness invariant and reachable states of `SpatialGrid` -/

/-- The invariant maintained by `SpatialGrid` on every state reached through
its API: positive cell size, unique object ids stored under their own key,
valid bounding boxes (the data-model invariant the specification imposes on
callers), cell buckets holding exactly the ids of the objects whose bounds
overlap the cell (in object insertion order), no empty bucket kept, and
unique bucket keys. -/
structure WFSG (g : SpatialGrid) : Prop where
  cell_pos : 0 < g.cell_size
  keys_nodup : (g.objects.map Prod.fst).Nodup
  key_id : ∀ p ∈ g.objects, p.2.id = p.1
  obj_valid : ∀ p ∈ g.objects, boxValid p.2.bounds
  buckets_eq : ∀ c : Cell, bucketIds g c =
    (g.objects.filter (fun p => decide (c ∈ getCells p.2.bounds g.cell_size))).map Prod.fst
  no_empty : ∀ c : Cell, dictLookup g.grid c ≠ some []
  grid_nodup : (g.grid.map Prod.fst).Nodup

/-- The `SpatialGrid` states produced by the class API: a freshly constructed
grid (with positive `cell_size`, as the specification requires of the
configuration), followed by any sequence of `add_object` / `remove_object`
calls.  Per the specification, the caller must treat ids as unique
(behaviour on a duplicate id is explicitly unspecified) and must only
construct bounding boxes with `min ≤ max`; the `add` constructor records
these caller obligations. -/
inductive ReachSG : SpatialGrid → Prop where
  | init (bounds : BoundingBox) (cell_size : ℚ) (hcs : 0 < cell_size) :
      ReachSG ⟨bounds, cell_size, [], []⟩
  | add (g : SpatialGrid) (obj : PlacedObject) (hg : ReachSG g)
      (hfresh : dictLookup g.objects obj.id = none)
      (hv : boxValid obj.bounds) :
      ReachSG (addObject g obj).1
  | remove (g : SpatialGrid) (obj_id : String) (hg : ReachSG g) :
      ReachSG (removeObject g obj_id).1

/-! ### Characterization of the spatial-hash fold of `add_object` -/

theorem addCellsStep_objects (i : String) (g : SpatialGrid) (c : Cell) :
    (addCellsStep i g c).objects = g.objects := rfl

theorem addCellsStep_cell_size (i : String) (g : SpatialGrid) (c : Cell) :
    (addCellsStep i g c).cell_size = g.cell_size := rfl

theorem addCells_objects (cells : List Cell) (g : SpatialGrid) (i : String) :
    (addCells g cells i).objects = g.objects := by
  induction cells generalizing g with
  | nil => rfl
  | cons c cs ih =>
      rw [addCells, List.foldl_cons]
      exact ih (addCellsStep i g c)

theorem addCells_cell_size (cells : List Cell) (g : SpatialGrid) (i : String) :
    (addCells g cells i).cell_size = g.cell_size := by
  induction cells generalizing g with
  | nil => rfl
  | cons c cs ih =>
      rw [addCells, List.foldl_cons]
      exact ih (addCellsStep i g c)

theorem addCells_bounds (cells : List Cell) (g : SpatialGrid) (i : String) :
    (addCells g cells i).bounds = g.bounds := by
  induction cells generalizing g with
  | nil => rfl
  | cons c cs ih =>
      rw [addCells, List.foldl_cons]
      exact ih (addCellsStep i g c)

theorem lookup_addCells {cells : List Cell} (hnd : cells.Nodup)
    (g : SpatialGrid) (i : String) (c : Cell) :
    dictLookup (addCells g cells i).grid c =
      if c ∈ cells then some (bucketIds g c ++ [i]) else dictLookup g.grid c := by
  induction cells generalizing g with
  | nil => simp [addCells]
  | cons c0 cs ih =>
      obtain ⟨hn0, hns⟩ := List.nodup_cons.mp hnd
      rw [addCells, List.foldl_cons]
      have step : cs.foldl (addCellsStep i) (addCellsStep i g c0) =
          addCells (addCellsStep i g c0) cs i := rfl
      rw [step, ih hns]
      by_cases hc : c = c0
      · subst hc
        rw [if_neg (fun hmem => hn0 hmem), if_pos (List.mem_cons_self c cs)]
        show dictLookup (dictInsert g.grid c (bucketIds g c ++ [i])) c = _
        rw [dictLookup_insert_self]
      · have hb : bucketIds (addCellsStep i g c0) c = bucketIds g c := by
          show (dictLookup (dictInsert g.grid c0 (bucketIds g c0 ++ [i])) c).getD [] = _
          rw [dictLookup_insert_ne _ _ _ _ hc]
          rfl
        by_cases hcs2 : c ∈ cs
        · rw [if_pos hcs2, if_pos (List.mem_cons.mpr (Or.inr hcs2)), hb]
        · rw [if_neg hcs2,
            if_neg (fun hmem => by rcases List.mem_cons.mp hmem with h | h
                                   exacts [hc h, hcs2 h])]
          show dictLookup (dictInsert g.grid c0 (bucketIds g c0 ++ [i])) c = _
          rw [dictLookup_insert_ne _ _ _ _ hc]

theorem bucketIds_addCells {cells : List Cell} (hnd : cells.Nodup)
    (g : SpatialGrid) (i : String) (c : Cell) :
    bucketIds (addCells g cells i) c =
      if c ∈ cells then bucketIds g c ++ [i] else bucketIds g c := by
  unfold bucketIds
  rw [lookup_addCells hnd]
  split <;> rfl

/-! ### Further dictionary lemmas used by the spatial-hash proofs -/

theorem dictLookup_eq_none_iff_not_mem_keys {α β : Type} [DecidableEq α]
    (d : List (α × β)) (a : α) :
    dictLookup d a = none ↔ a ∉ d.map Prod.fst := by
  rw [dictLookup_eq_none_iff]
  constructor
  · intro h hmem
    obtain ⟨p, hp, hpa⟩ := List.mem_map.mp hmem
    exact h p hp hpa
  · intro h p hp hpa
    exact h (List.mem_map.mpr ⟨p, hp, hpa⟩)

theorem dictErase_dictInsert_comm {α β : Type} [DecidableEq α]
    (d : List (α × β)) {c k : α} (h : c ≠ k) (v : β) :
    dictErase (dictInsert d k v) c = dictInsert (dictErase d c) k v := by
  induction d with
  | nil => simp [dictInsert, dictErase, h, Ne.symm h]
  | cons p rest ih =>
      obtain ⟨a, b⟩ := p
      by_cases hak : a = k
      · subst hak
        simp [dictInsert, dictErase, Ne.symm h, h]
      · by_cases hac : a = c
        · subst hac
          simp [dictInsert, dictErase, hak, Ne.symm hak]
        · simp [dictInsert, dictErase, hak, hac, ih]

theorem dictInsert_dictInsert_comm_of_mem {α β : Type} [DecidableEq α]
    {d : List (α × β)} {c k : α} (h : c ≠ k) {w : β}
    (hc : dictLookup d c = some w) (v u : β) :
    dictInsert (dictInsert d k v) c u = dictInsert (dictInsert d c u) k v := by
  induction d with
  | nil => simp [dictLookup] at hc
  | cons p rest ih =>
      obtain ⟨a, b⟩ := p
      rw [dictLookup_cons] at hc
      by_cases hak : a = k
      · subst hak
        simp [dictInsert, Ne.symm h, h]
      · by_cases hac : a = c
        · subst hac
          simp [dictInsert, hak, Ne.symm hak]
        · simp [hac] at hc
          simp [dictInsert, hak, hac, ih hc]

/-! ### Characterization of the spatial-hash fold of `remove_object` -/

theorem removeCellsStep_objects (i : String) (g : SpatialGrid) (c : Cell) :
    (removeCellsStep i g c).objects = g.objects := by
  unfold removeCellsStep
  split
  · rfl
  · split
    · split <;> rfl
    · rfl

theorem removeCellsStep_cell_size (i : String) (g : SpatialGrid) (c : Cell) :
    (removeCellsStep i g c).cell_size = g.cell_size := by
  unfold removeCellsStep
  split
  · rfl
  · split
    · split <;> rfl
    · rfl

theorem removeCellsStep_bounds (i : String) (g : SpatialGrid) (c : Cell) :
    (removeCellsStep i g c).bounds = g.bounds := by
  unfold removeCellsStep
  split
  · rfl
  · split
    · split <;> rfl
    · rfl

theorem removeCells_objects (cells : List Cell) (g : SpatialGrid) (i : String) :
    (removeCells g cells i).objects = g.objects := by
  induction cells generalizing g with
  | nil => rfl
  | cons c cs ih =>
      rw [removeCells, List.foldl_cons]
      have step : cs.foldl (removeCellsStep i) (removeCellsStep i g c) =
          removeCells (removeCellsStep i g c) cs i := rfl
      rw [step, ih, removeCellsStep_objects]

theorem removeCells_cell_size (cells : List Cell) (g : SpatialGrid) (i : String) :
    (removeCells g cells i).cell_size = g.cell_size := by
  induction cells generalizing g with
  | nil => rfl
  | cons c cs ih =>
      rw [removeCells, List.foldl_cons]
      have step : cs.foldl (removeCellsStep i) (removeCellsStep i g c) =
          removeCells (removeCellsStep i g c) cs i := rfl
      rw [step, ih, removeCellsStep_cell_size]

theorem removeCells_bounds (cells : List Cell) (g : SpatialGrid) (i : String) :
    (removeCells g cells i).bounds = g.bounds := by
  induction cells generalizing g with
  | nil => rfl
  | cons c cs ih =>
      rw [removeCells, List.foldl_cons]
      have step : cs.foldl (removeCellsStep i) (removeCellsStep i g c) =
          removeCells (removeCellsStep i g c) cs i := rfl
      rw [step, ih, removeCellsStep_bounds]

theorem grid_nodup_addCellsStep {g : SpatialGrid}
    (h : (g.grid.map Prod.fst).Nodup) (i : String) (c : Cell) :
    ((addCellsStep i g c).grid.map Prod.fst).Nodup := by
  show ((dictInsert g.grid c (bucketIds g c ++ [i])).map Prod.fst).Nodup
  rcases hl : dictLookup g.grid c with _ | ids
  · rw [keys_dictInsert_of_none hl]
    rw [List.nodup_append]
    exact ⟨h, List.nodup_singleton c,
      by simpa using (dictLookup_eq_none_iff_not_mem_keys g.grid c).mp hl⟩
  · rw [keys_dictInsert_of_some hl]
    exact h

theorem grid_nodup_removeCellsStep {g : SpatialGrid}
    (h : (g.grid.map Prod.fst).Nodup) (i : String) (c : Cell) :
    ((removeCellsStep i g c).grid.map Prod.fst).Nodup := by
  unfold removeCellsStep
  split
  · exact h
  · split
    · split
      · show ((dictErase g.grid c).map Prod.fst).Nodup
        rw [keys_dictErase]
        exact List.Nodup.sublist (removeFirst_sublist _ _) h
      · next heq _ _ =>
          show ((dictInsert g.grid c _).map Prod.fst).Nodup
          rw [keys_dictInsert_of_some heq]
          exact h
    · exact h

theorem bucketIds_removeCellsStep {g : SpatialGrid}
    (hgnd : (g.grid.map Prod.fst).Nodup) (i : String) (c0 c : Cell) :
    bucketIds (removeCellsStep i g c0) c =
      if c = c0 then removeFirst (bucketIds g c) i else bucketIds g c := by
  unfold removeCellsStep
  rcases hl : dictLookup g.grid c0 with _ | ids
  · by_cases hc : c = c0
    · subst hc
      rw [if_pos rfl, bucketIds, hl]
      rfl
    · rw [if_neg hc]
  · dsimp only
    by_cases hi : i ∈ ids
    · rw [if_pos hi]
      by_cases hrest : removeFirst ids i = []
      · rw [if_pos hrest]
        by_cases hc : c = c0
        · subst hc
          rw [if_pos rfl, bucketIds]
          show (dictLookup (dictErase g.grid c) c).getD [] = _
          rw [dictLookup_erase_self_of_nodup hgnd]
          rw [bucketIds, hl]
          exact hrest.symm
        · rw [if_neg hc, bucketIds, bucketIds]
          show (dictLookup (dictErase g.grid c0) c).getD [] = _
          rw [dictLookup_erase_ne _ _ _ hc]
      · rw [if_neg hrest]
        by_cases hc : c = c0
        · subst hc
          rw [if_pos rfl, bucketIds]
          show (dictLookup (dictInsert g.grid c _) c).getD [] = _
          rw [dictLookup_insert_self, bucketIds, hl]
          rfl
        · rw [if_neg hc, bucketIds, bucketIds]
          show (dictLookup (dictInsert g.grid c0 _) c).getD [] = _
          rw [dictLookup_insert_ne _ _ _ _ hc]
    · rw [if_neg hi]
      by_cases hc : c = c0
      · subst hc
        rw [if_pos rfl, bucketIds, hl]
        exact (removeFirst_of_not_mem hi).symm
      · rw [if_neg hc]

theorem grid_nodup_removeCells (cells : List Cell) {g : SpatialGrid}
    (hgnd : (g.grid.map Prod.fst).Nodup) (i : String) :
    ((removeCells g cells i).grid.map Prod.fst).Nodup := by
  induction cells generalizing g with
  | nil => exact hgnd
  | cons c cs ih =>
      rw [removeCells, List.foldl_cons]
      exact ih (grid_nodup_removeCellsStep hgnd i c)

theorem grid_nodup_addCells (cells : List Cell) {g : SpatialGrid}
    (hgnd : (g.grid.map Prod.fst).Nodup) (i : String) :
    ((addCells g cells i).grid.map Prod.fst).Nodup := by
  induction cells generalizing g with
  | nil => exact hgnd
  | cons c cs ih =>
      rw [addCells, List.foldl_cons]
      exact ih (grid_nodup_addCellsStep hgnd i c)

theorem bucketIds_removeCells {cells : List Cell} (hnd : cells.Nodup)
    {g : SpatialGrid} (hgnd : (g.grid.map Prod.fst).Nodup) (i : String) (c : Cell) :
    bucketIds (removeCells g cells i) c =
      if c ∈ cells then removeFirst (bucketIds g c) i else bucketIds g c := by
  induction cells generalizing g with
  | nil => simp [removeCells]
  | cons c0 cs ih =>
      obtain ⟨hn0, hns⟩ := List.nodup_cons.mp hnd
      rw [removeCells, List.foldl_cons]
      have step : cs.foldl (removeCellsStep i) (removeCellsStep i g c0) =
          removeCells (removeCellsStep i g c0) cs i := rfl
      rw [step, ih hns (grid_nodup_removeCellsStep hgnd i c0)]
      by_cases hc : c = c0
      · subst hc
        rw [if_neg (fun hmem => hn0 hmem), if_pos (List.mem_cons_self c cs),
          bucketIds_removeCellsStep hgnd, if_pos rfl]
      · rw [bucketIds_removeCellsStep hgnd, if_neg hc]
        by_cases hcs2 : c ∈ cs
        · rw [if_pos hcs2, if_pos (List.mem_cons.mpr (Or.inr hcs2))]
        · rw [if_neg hcs2,
            if_neg (fun hmem => by rcases List.mem_cons.mp hmem with h | h
                                   exacts [hc h, hcs2 h])]

theorem no_empty_addCells {cells : List Cell} (hnd : cells.Nodup)
    {g : SpatialGrid} (hne : ∀ c : Cell, dictLookup g.grid c ≠ some [])
    (i : String) :
    ∀ c : Cell, dictLookup (addCells g cells i).grid c ≠ some [] := by
  intro c
  rw [lookup_addCells hnd]
  split
  · simp
  · exact hne c

theorem no_empty_removeCellsStep {g : SpatialGrid}
    (hgnd : (g.grid.map Prod.fst).Nodup)
    (hne : ∀ c : Cell, dictLookup g.grid c ≠ some []) (i : String) (c0 : Cell) :
    ∀ c : Cell, dictLookup (removeCellsStep i g c0).grid c ≠ some [] := by
  intro c
  unfold removeCellsStep
  rcases hl : dictLookup g.grid c0 with _ | ids
  · exact hne c
  · dsimp only
    by_cases hi : i ∈ ids
    · rw [if_pos hi]
      by_cases hrest : removeFirst ids i = []
      · rw [if_pos hrest]
        show dictLookup (dictErase g.grid c0) c ≠ some []
        by_cases hc : c = c0
        · subst hc
          rw [dictLookup_erase_self_of_nodup hgnd]
          simp
        · rw [dictLookup_erase_ne _ _ _ hc]
          exact hne c
      · rw [if_neg hrest]
        show dictLookup (dictInsert g.grid c0 _) c ≠ some []
        by_cases hc : c = c0
        · subst hc
          rw [dictLookup_insert_self]
          simpa using hrest
        · rw [dictLookup_insert_ne _ _ _ _ hc]
          exact hne c
    · rw [if_neg hi]
      exact hne c

theorem no_empty_removeCells {cells : List Cell} {g : SpatialGrid}
    (hgnd : (g.grid.map Prod.fst).Nodup)
    (hne : ∀ c : Cell, dictLookup g.grid c ≠ some []) (i : String) :
    ∀ c : Cell, dictLookup (removeCells g cells i).grid c ≠ some [] := by
  induction cells generalizing g with
  | nil => exact hne
  | cons c0 cs ih =>
      rw [removeCells, List.foldl_cons]
      exact ih (grid_nodup_removeCellsStep hgnd i c0)
        (no_empty_removeCellsStep hgnd hne i c0)

/-! ### The remove-after-add cancellation used for claim C5 -/

theorem removeCellsStep_addCellsStep_self {g : SpatialGrid} {i : String} {c : Cell}
    (hni : i ∉ bucketIds g c) (hne : dictLookup g.grid c ≠ some []) :
    removeCellsStep i (addCellsStep i g c) c = g := by
  show removeCellsStep i { g with grid := dictInsert g.grid c (bucketIds g c ++ [i]) } c = g
  unfold removeCellsStep
  simp only [dictLookup_insert_self]
  rw [if_pos (List.mem_append_right _ (List.mem_singleton_self i)),
    removeFirst_append_self hni]
  rcases hb : dictLookup g.grid c with _ | ids
  · have hbe : bucketIds g c = [] := by rw [bucketIds, hb]; rfl
    rw [if_pos hbe]
    show { g with grid := dictErase (dictInsert g.grid c (bucketIds g c ++ [i])) c } = g
    rw [hbe, dictInsert_of_lookup_none hb, dictErase_append_of_lookup_none hb]
  · have hbi : bucketIds g c = ids := by rw [bucketIds, hb]; rfl
    have hids : ids ≠ [] := fun h0 => hne (by rw [hb, h0])
    rw [if_neg (hbi ▸ hids)]
    show { g with
      grid := dictInsert (dictInsert g.grid c (bucketIds g c ++ [i])) c (bucketIds g c) } = g
    rw [dictInsert_insert_self, hbi, dictInsert_lookup_self hb]

theorem sg_eq_of_fields {g1 g2 : SpatialGrid} (hb : g1.bounds = g2.bounds)
    (hcs : g1.cell_size = g2.cell_size) (ho : g1.objects = g2.objects)
    (hg : g1.grid = g2.grid) : g1 = g2 := by
  cases g1
  cases g2
  cases hb
  cases hcs
  cases ho
  cases hg
  rfl

theorem removeCellsStep_addCellsStep_comm {g : SpatialGrid} {i : String}
    {c c0 : Cell} (hcc : c ≠ c0) :
    removeCellsStep i (addCellsStep i g c0) c =
      addCellsStep i (removeCellsStep i g c) c0 := by
  have hlk : dictLookup (addCellsStep i g c0).grid c = dictLookup g.grid c := by
    show dictLookup (dictInsert g.grid c0 _) c = _
    exact dictLookup_insert_ne _ _ _ _ hcc
  rcases hb : dictLookup g.grid c with _ | ids
  · have hL : removeCellsStep i (addCellsStep i g c0) c = addCellsStep i g c0 := by
      unfold removeCellsStep
      rw [hlk, hb]
    have hR : removeCellsStep i g c = g := by
      unfold removeCellsStep
      rw [hb]
    rw [hL, hR]
  · by_cases hi : i ∈ ids
    · by_cases hrest : removeFirst ids i = []
      · have hL : removeCellsStep i (addCellsStep i g c0) c =
            { addCellsStep i g c0 with grid := dictErase (addCellsStep i g c0).grid c } := by
          unfold removeCellsStep
          rw [hlk, hb]
          dsimp only
          rw [if_pos hi, if_pos hrest]
        have hR : removeCellsStep i g c = { g with grid := dictErase g.grid c } := by
          unfold removeCellsStep
          rw [hb]
          dsimp only
          rw [if_pos hi, if_pos hrest]
        rw [hL, hR]
        refine sg_eq_of_fields rfl rfl rfl ?_
        show dictErase (dictInsert g.grid c0 (bucketIds g c0 ++ [i])) c =
          dictInsert (dictErase g.grid c) c0
            ((dictLookup (dictErase g.grid c) c0).getD [] ++ [i])
        rw [dictLookup_erase_ne _ _ _ (Ne.symm hcc), dictErase_dictInsert_comm _ hcc]
        rfl
      · have hL : removeCellsStep i (addCellsStep i g c0) c =
            { addCellsStep i g c0 with
              grid := dictInsert (addCellsStep i g c0).grid c (removeFirst ids i) } := by
          unfold removeCellsStep
          rw [hlk, hb]
          dsimp only
          rw [if_pos hi, if_neg hrest]
        have hR : removeCellsStep i g c =
            { g with grid := dictInsert g.grid c (removeFirst ids i) } := by
          unfold removeCellsStep
          rw [hb]
          dsimp only
          rw [if_pos hi, if_neg hrest]
        rw [hL, hR]
        refine sg_eq_of_fields rfl rfl rfl ?_
        show dictInsert (dictInsert g.grid c0 (bucketIds g c0 ++ [i])) c (removeFirst ids i) =
          dictInsert (dictInsert g.grid c (removeFirst ids i)) c0
            ((dictLookup (dictInsert g.grid c (removeFirst ids i)) c0).getD [] ++ [i])
        rw [dictLookup_insert_ne _ _ _ _ (Ne.symm hcc),
          dictInsert_dictInsert_comm_of_mem hcc hb]
        rfl
    · have hL : removeCellsStep i (addCellsStep i g c0) c = addCellsStep i g c0 := by
        unfold removeCellsStep
        rw [hlk, hb]
        dsimp only
        rw [if_neg hi]
      have hR : removeCellsStep i g c = g := by
        unfold removeCellsStep
        rw [hb]
        dsimp only
        rw [if_neg hi]
      rw [hL, hR]

theorem removeCells_addCells_cancel {cells : List Cell} (hnd : cells.Nodup)
    {g : SpatialGrid} {i : String}
    (hni : ∀ c : Cell, i ∉ bucketIds g c)
    (hne : ∀ c : Cell, dictLookup g.grid c ≠ some []) :
    removeCells (addCells g cells i) cells i = g := by
  induction cells generalizing g with
  | nil => rfl
  | cons c cs ih =>
      obtain ⟨hn0, hns⟩ := List.nodup_cons.mp hnd
      have comm : ∀ (g2 : SpatialGrid) (cs2 : List Cell), c ∉ cs2 →
          removeCellsStep i (addCells g2 cs2 i) c =
            addCells (removeCellsStep i g2 c) cs2 i := by
        intro g2 cs2 hnotin
        induction cs2 generalizing g2 with
        | nil => rfl
        | cons c2 cs2t ih2 =>
            have hcc : c ≠ c2 := fun h => hnotin (h ▸ List.mem_cons_self c2 cs2t)
            rw [addCells, List.foldl_cons]
            have step1 : cs2t.foldl (addCellsStep i) (addCellsStep i g2 c2) =
                addCells (addCellsStep i g2 c2) cs2t i := rfl
            rw [step1, ih2 _ (fun h => hnotin (List.mem_cons_of_mem c2 h)),
              removeCellsStep_addCellsStep_comm hcc]
            rfl
      rw [addCells, List.foldl_cons, removeCells, List.foldl_cons]
      have step2 : cs.foldl (addCellsStep i) (addCellsStep i g c) =
          addCells (addCellsStep i g c) cs i := rfl
      rw [step2]
      have step3 : cs.foldl (removeCellsStep i)
            (removeCellsStep i (addCells (addCellsStep i g c) cs i) c) =
          removeCells (removeCellsStep i (addCells (addCellsStep i g c) cs i) c) cs i := rfl
      rw [step3, comm _ cs hn0, removeCellsStep_addCellsStep_self (hni c) (hne c)]
      exact ih hns hni hne

/-! ### The invariant holds on every reachable state -/

theorem wfsg_init {b : BoundingBox} {cs : ℚ} (hcs : 0 < cs) :
    WFSG ⟨b, cs, [], []⟩ := by
  refine ⟨hcs, ?_, ?_, ?_, ?_, ?_, ?_⟩
  · simp
  · simp
  · simp
  · intro c
    simp [bucketIds, dictLookup]
  · intro c
    simp [dictLookup]
  · simp

theorem wfsg_add {g : SpatialGrid} (hwf : WFSG g) {obj : PlacedObject}
    (hfresh : dictLookup g.objects obj.id = none)
    (hv : boxValid obj.bounds) : WFSG (addObject g obj).1 := by
  unfold addObject
  by_cases hcol : checkCollision g obj.bounds (some obj.id) = true
  · rw [if_pos hcol]
    exact hwf
  · rw [if_neg hcol]
    dsimp only
    set cells := getCells obj.bounds g.cell_size with hcells
    have hcnd := nodup_getCells obj.bounds g.cell_size
    set g1 : SpatialGrid := { g with objects := dictInsert g.objects obj.id obj } with hg1
    have hobjs : g1.objects = g.objects ++ [(obj.id, obj)] := by
      rw [hg1]
      exact dictInsert_of_lookup_none hfresh obj
    have hfreshk : obj.id ∉ g.objects.map Prod.fst :=
      (dictLookup_eq_none_iff_not_mem_keys _ _).mp hfresh
    refine ⟨?_, ?_, ?_, ?_, ?_, ?_, ?_⟩
    · rw [addCells_cell_size]
      exact hwf.cell_pos
    · rw [addCells_objects, hobjs]
      simp only [List.map_append, List.map_cons, List.map_nil]
      rw [List.nodup_append]
      exact ⟨hwf.keys_nodup, List.nodup_singleton _, by simpa using hfreshk⟩
    · rw [addCells_objects, hobjs]
      intro p hp
      rcases List.mem_append.mp hp with h | h
      · exact hwf.key_id p h
      · rcases List.mem_singleton.mp h with rfl
        rfl
    · rw [addCells_objects, hobjs]
      intro p hp
      rcases List.mem_append.mp hp with h | h
      · exact hwf.obj_valid p h
      · rcases List.mem_singleton.mp h with rfl
        exact hv
    · intro c
      have hbg1 : ∀ c2 : Cell, bucketIds g1 c2 = bucketIds g c2 := fun c2 => rfl
      have hstep := bucketIds_addCells hcnd g1 obj.id c
      have hcs1 : (addCells g1 cells obj.id).cell_size = g.cell_size :=
        addCells_cell_size cells g1 obj.id
      rw [show bucketIds (addCells g1 cells obj.id) c =
          (dictLookup (addCells g1 cells obj.id).grid c).getD [] from rfl] at hstep ⊢
      rw [hstep, hbg1, addCells_objects, hobjs, hcs1]
      rw [List.filter_append, List.map_append, hwf.buckets_eq c]
      by_cases hcmem : c ∈ cells
      · rw [if_pos hcmem]
        congr 1
        simp [hcells ▸ hcmem]
      · rw [if_neg hcmem]
        have : List.filter (fun p => decide (c ∈ getCells p.2.bounds g.cell_size))
            [(obj.id, obj)] = [] := by
          simp [hcells ▸ hcmem]
        rw [this]
        simp
    · exact @no_empty_addCells cells hcnd g1 (fun c => hwf.no_empty c) obj.id
    · exact @grid_nodup_addCells cells g1 hwf.grid_nodup obj.id

theorem wfsg_remove {g : SpatialGrid} (hwf : WFSG g) (oid : String) :
    WFSG (removeObject g oid).1 := by
  unfold removeObject
  rcases hlk : dictLookup g.objects oid with _ | obj
  · exact hwf
  · dsimp only
    set cells := getCells obj.bounds g.cell_size with hcells
    have hcnd := nodup_getCells obj.bounds g.cell_size
    set g1 : SpatialGrid := removeCells g cells oid with hg1
    have hg1o : g1.objects = g.objects := removeCells_objects cells g oid
    have hg1cs : g1.cell_size = g.cell_size := removeCells_cell_size cells g oid
    have hmem : (oid, obj) ∈ g.objects := dictLookup_mem hlk
    have herase : dictErase g1.objects oid =
        g.objects.filter (fun p => decide (p.1 ≠ oid)) := by
      rw [hg1o]
      exact dictErase_eq_filter_of_nodup hwf.keys_nodup
    refine ⟨?_, ?_, ?_, ?_, ?_, ?_, ?_⟩
    · exact hg1cs ▸ hwf.cell_pos
    · show ((dictErase g1.objects oid).map Prod.fst).Nodup
      rw [hg1o, keys_dictErase]
      exact List.Nodup.sublist (removeFirst_sublist _ _) hwf.keys_nodup
    · intro p hp
      rw [herase] at hp
      exact hwf.key_id p (List.mem_of_mem_filter hp)
    · intro p hp
      rw [herase] at hp
      exact hwf.obj_valid p (List.mem_of_mem_filter hp)
    · intro c
      show bucketIds g1 c = _
      rw [bucketIds_removeCells hcnd hwf.grid_nodup, herase,
        show ({ g1 with objects := dictErase g1.objects oid } : SpatialGrid).cell_size =
          g.cell_size from hg1cs]
      have hsub : ((g.objects.filter
          (fun p => decide (c ∈ getCells p.2.bounds g.cell_size))).map Prod.fst).Nodup :=
        List.Nodup.sublist (List.Sublist.map Prod.fst (List.filter_sublist _))
          hwf.keys_nodup
      rw [List.filter_comm, map_fst_filter_ne_eq_removeFirst _ oid hsub,
        ← hwf.buckets_eq c]
      by_cases hcmem : c ∈ cells
      · rw [if_pos hcmem]
      · rw [if_neg hcmem]
        refine (removeFirst_of_not_mem ?_).symm
        rw [hwf.buckets_eq c]
        intro hin
        obtain ⟨p, hp, hp1⟩ := List.mem_map.mp hin
        have hpmem := List.mem_of_mem_filter hp
        have hpc := List.of_mem_filter hp
        have : p = (oid, obj) := by
          have h1 : dictLookup g.objects p.1 = some p.2 :=
            dictLookup_of_mem_nodup hwf.keys_nodup (by
              obtain ⟨p1, p2⟩ := p
              exact hpmem)
          rw [hp1, hlk] at h1
          obtain ⟨p1, p2⟩ := p
          simp only at hp1
          subst hp1
          simp only [Option.some.injEq] at h1
          rw [h1]
        rw [this] at hpc
        simp only [decide_eq_true_eq] at hpc
        exact hcmem (hcells ▸ hpc)
    · intro c
      exact no_empty_removeCells hwf.grid_nodup (fun c2 => hwf.no_empty c2) oid c
    · exact grid_nodup_removeCells cells hwf.grid_nodup oid

/-- Every state reached through the `SpatialGrid` API satisfies the
invariant. -/
theorem reach_wfsg {g : SpatialGrid} (hg : ReachSG g) : WFSG g := by
  induction hg with
  | init b cs hcs => exact wfsg_init hcs
  | add g obj hg hfresh hv ih => exact wfsg_add ih hfresh hv
  | remove g oid hg ih => exact wfsg_remove ih oid

/-! ## Equivalence of the two-phase collision check with the naive scan -/

/-- The naive reference algorithm described by the specification sentence for
claim C1: scan every placed object, skip the one whose id equals
`exclude_id`, and test `BoundingBox.intersects` against each. -/
def naiveCheckCollision (g : SpatialGrid) (bounds : BoundingBox)
    (exclude_id : Option String) : Bool :=
  g.objects.any fun p =>
    decide (some p.2.id ≠ exclude_id) && bounds.intersects p.2.bounds

theorem mem_candidateIds {g : SpatialGrid} {cells : List Cell} {oid : String} :
    oid ∈ candidateIds g cells ↔ ∃ c ∈ cells, oid ∈ bucketIds g c := by
  unfold candidateIds
  rw [List.mem_dedup, List.mem_flatMap]

theorem checkCollision_eq_naive {g : SpatialGrid} (hwf : WFSG g)
    {bounds : BoundingBox} (hb : boxValid bounds) (excl : Option String) :
    checkCollision g bounds excl = naiveCheckCollision g bounds excl := by
  unfold checkCollision naiveCheckCollision
  rw [Bool.eq_iff_iff, List.any_eq_true, List.any_eq_true]
  constructor
  · rintro ⟨oid, hmem, hpred⟩
    by_cases hexcl : some oid = excl
    · rw [if_pos hexcl] at hpred
      cases hpred
    · rw [if_neg hexcl] at hpred
      rcases hlk : dictLookup g.objects oid with _ | obj
      · rw [hlk] at hpred
        cases hpred
      · rw [hlk] at hpred
        have hpmem : (oid, obj) ∈ g.objects := dictLookup_mem hlk
        refine ⟨(oid, obj), hpmem, ?_⟩
        rw [Bool.and_eq_true, decide_eq_true_eq]
        have hid : obj.id = oid := hwf.key_id (oid, obj) hpmem
        exact ⟨by rw [hid]; exact hexcl, hpred⟩
  · rintro ⟨p, hp, hpred⟩
    rw [Bool.and_eq_true, decide_eq_true_eq] at hpred
    obtain ⟨hne, hint⟩ := hpred
    obtain ⟨c0, hc0b, hc0p⟩ :=
      exists_common_cell hwf.cell_pos hb (hwf.obj_valid p hp) hint
    have hid : p.2.id = p.1 := hwf.key_id p hp
    refine ⟨p.1, ?_, ?_⟩
    · rw [mem_candidateIds]
      refine ⟨c0, hc0b, ?_⟩
      rw [hwf.buckets_eq c0]
      exact List.mem_map.mpr ⟨p, List.mem_filter.mpr ⟨hp, by simpa using hc0p⟩, rfl⟩
    · rw [if_neg (by rw [← hid]; exact hne)]
      have : dictLookup g.objects p.1 = some p.2 :=
        dictLookup_of_mem_nodup hwf.keys_nodup (by obtain ⟨p1, p2⟩ := p; exact hp)
      rw [this]
      exact hint

/-! ## Characterization of `find_nearby` -/

/-- Soundness and completeness of `find_nearby` on well-formed states whose
objects all have their position inside their own bounds: membership in the
result is exactly placement, true distance at most `radius`, and passing the
type filter. -/
theorem mem_findNearby_iff {g : SpatialGrid} (hwf : WFSG g)
    (hpos : ∀ p ∈ g.objects, p.2.bounds.contains p.2.position = true)
    (pos : Vector3) (r : ℚ) (et : Option String) (o : PlacedObject) :
    o ∈ findNearby g pos r et ↔
      (∃ k, (k, o) ∈ g.objects) ∧ pos.distLe o.position r = true ∧
        typeSkip et o.entity_type = false := by
  unfold findNearby
  rw [List.mem_filterMap]
  constructor
  · rintro ⟨oid, hmem, hf⟩
    rcases hlk : dictLookup g.objects oid with _ | obj
    · rw [hlk] at hf
      cases hf
    · rw [hlk] at hf
      dsimp only at hf
      by_cases hskip : typeSkip et obj.entity_type = true
      · rw [if_pos hskip] at hf
        cases hf
      · rw [if_neg hskip] at hf
        by_cases hd : pos.distLe obj.position r = true
        · rw [if_pos hd] at hf
          obtain rfl : obj = o := by
            simpa using hf
          exact ⟨⟨oid, dictLookup_mem hlk⟩, hd,
            Bool.not_eq_true _ ▸ Bool.of_not_eq_true hskip⟩
        · rw [if_neg hd] at hf
          cases hf
  · rintro ⟨⟨k, hk⟩, hdist, hskip⟩
    have hdl := hdist
    rw [Vector3.distLe, decide_eq_true_eq] at hdl
    obtain ⟨hr, hd2⟩ := hdl
    obtain ⟨hx1, hx2, hy1, hy2, hz1, hz2⟩ := dist2_axis_bounds hr hd2
    have hcontains :
        (⟨⟨pos.x - r, pos.y - r, pos.z - r⟩,
          ⟨pos.x + r, pos.y + r, pos.z + r⟩⟩ : BoundingBox).contains o.position = true := by
      rw [BoundingBox.contains, decide_eq_true_eq]
      exact ⟨hx1, hx2, hy1, hy2, hz1, hz2⟩
    have hob := hpos (k, o) hk
    have hcb := cell_of_point_mem_getCells hwf.cell_pos hob
    have hcs := cell_of_point_mem_getCells hwf.cell_pos hcontains
    refine ⟨k, ?_, ?_⟩
    · rw [mem_candidateIds]
      refine ⟨_, hcs, ?_⟩
      rw [hwf.buckets_eq]
      exact List.mem_map.mpr ⟨(k, o), List.mem_filter.mpr ⟨hk, by simpa using hcb⟩, rfl⟩
    · rw [dictLookup_of_mem_nodup hwf.keys_nodup hk]
      dsimp only
      rw [if_neg (by rw [hskip]; simp), if_pos hdist]

theorem dictLookup_append_right_of_none {α β : Type} [DecidableEq α]
    {d : List (α × β)} {a : α} (h : dictLookup d a = none) (v : β) :
    dictLookup (d ++ [(a, v)]) a = some v := by
  induction d with
  | nil => simp [dictLookup]
  | cons p rest ih =>
      obtain ⟨k, w⟩ := p
      rw [dictLookup_cons] at h
      by_cases hk : k = a
      · simp [hk] at h
      · simp [hk] at h
        rw [List.cons_append, dictLookup_cons, if_neg hk]
        exact ih h

/-! ## Claim theorems for the spatial grid -/

/-- C1: on every `SpatialGrid` populated only through `add_object` /
`remove_object`, and for every query box satisfying the data-model invariant
`min ≤ max`, the two-phase `check_collision(bounds, exclude_id)` returns
exactly the result of the naive scan: true iff some placed object whose id
differs from `exclude_id` has a bounding box intersecting the given bounds
(inclusive touch counting as intersection). -/
theorem checkCollision_equiv_naive_scan {g : SpatialGrid} (hg : ReachSG g)
    {bounds : BoundingBox} (hb : boxValid bounds) (exclude_id : Option String) :
    checkCollision g bounds exclude_id = naiveCheckCollision g bounds exclude_id ∧
      (checkCollision g bounds exclude_id = true ↔
        ∃ p ∈ g.objects, some p.2.id ≠ exclude_id ∧
          bounds.intersects p.2.bounds = true) := by
  have hwf := reach_wfsg hg
  have heq := checkCollision_eq_naive hwf hb exclude_id
  refine ⟨heq, ?_⟩
  rw [heq, naiveCheckCollision, List.any_eq_true]
  constructor
  · rintro ⟨p, hp, hpred⟩
    rw [Bool.and_eq_true, decide_eq_true_eq] at hpred
    exact ⟨p, hp, hpred.1, hpred.2⟩
  · rintro ⟨p, hp, hne, hint⟩
    exact ⟨p, hp, by rw [Bool.and_eq_true, decide_eq_true_eq]; exact ⟨hne, hint⟩⟩

/-- C2: on every reachable `SpatialGrid`, `add_object(obj)` for an object
(with a valid box) whose bounds intersect some placed object other than one
with `obj`'s own id returns false and leaves the entire state — the objects
map and every cell bucket — unchanged. -/
theorem addObject_rejects_overlap {g : SpatialGrid} (hg : ReachSG g)
    {obj : PlacedObject} (hv : boxValid obj.bounds)
    (hcol : ∃ p ∈ g.objects, p.2.id ≠ obj.id ∧
      obj.bounds.intersects p.2.bounds = true) :
    addObject g obj = (g, false) := by
  have hwf := reach_wfsg hg
  have hchk : checkCollision g obj.bounds (some obj.id) = true := by
    rw [checkCollision_eq_naive hwf hv, naiveCheckCollision, List.any_eq_true]
    obtain ⟨p, hp, hne, hint⟩ := hcol
    refine ⟨p, hp, ?_⟩
    rw [Bool.and_eq_true, decide_eq_true_eq]
    exact ⟨by simpa using hne, hint⟩
  unfold addObject
  rw [if_pos hchk]

/-- C5: on every reachable `SpatialGrid` and object with an id not yet
present, a successful `add_object(o)` followed by `remove_object(o.id)`
returns true and restores the grid state exactly — the objects map and the
cell-bucket map (including the absence of buckets that became empty) are the
ones from before the insertion. -/
theorem addObject_removeObject_roundtrip {g : SpatialGrid} (hg : ReachSG g)
    {o : PlacedObject} (hfresh : dictLookup g.objects o.id = none)
    (hadd : (addObject g o).2 = true) :
    removeObject (addObject g o).1 o.id = (g, true) := by
  have hwf := reach_wfsg hg
  have hfreshk : o.id ∉ g.objects.map Prod.fst :=
    (dictLookup_eq_none_iff_not_mem_keys _ _).mp hfresh
  unfold addObject at hadd ⊢
  by_cases hcol : checkCollision g o.bounds (some o.id) = true
  · rw [if_pos hcol] at hadd
    cases hadd
  · rw [if_neg hcol]
    dsimp only
    set cells := getCells o.bounds g.cell_size with hcells
    set g1 : SpatialGrid := { g with objects := dictInsert g.objects o.id o } with hg1
    set gA : SpatialGrid := addCells g1 cells o.id with hgA
    have hobjs : gA.objects = g.objects ++ [(o.id, o)] := by
      rw [hgA, addCells_objects, hg1]
      exact dictInsert_of_lookup_none hfresh o
    have hlk : dictLookup gA.objects o.id = some o := by
      rw [hobjs]
      exact dictLookup_append_right_of_none hfresh o
    unfold removeObject
    rw [hlk]
    dsimp only
    have hcs : gA.cell_size = g.cell_size := addCells_cell_size cells g1 o.id
    rw [hcs]
    have hni : ∀ c : Cell, o.id ∉ bucketIds g1 c := by
      intro c hin
      have : o.id ∈ bucketIds g c := hin
      rw [hwf.buckets_eq c] at this
      obtain ⟨p, hp, hp1⟩ := List.mem_map.mp this
      exact hfreshk (hp1 ▸ List.mem_map.mpr
        ⟨p, List.mem_of_mem_filter hp, rfl⟩)
    have hne : ∀ c : Cell, dictLookup g1.grid c ≠ some [] := fun c => hwf.no_empty c
    have hcancel := removeCells_addCells_cancel (hcells ▸ nodup_getCells o.bounds g.cell_size)
      hni hne
    rw [hgA, hcancel]
    have hrestore : ({ g1 with objects := dictErase g1.objects o.id } : SpatialGrid) = g := by
      refine sg_eq_of_fields rfl rfl ?_ rfl
      show dictErase (dictInsert g.objects o.id o) o.id = g.objects
      rw [dictInsert_of_lookup_none hfresh o]
      exact dictErase_append_of_lookup_none hfresh o
    rw [hrestore]

/-! ### Concrete witness states for the spatial-grid claims -/

def c1Base : SpatialGrid := ⟨⟨⟨0, 0, 0⟩, ⟨50, 50, 50⟩⟩, 10, [], []⟩

def c1Obj : PlacedObject := ⟨"a", "tree", ⟨1, 1, 1⟩, ⟨⟨1, 1, 1⟩, ⟨2, 2, 2⟩⟩⟩

def c1Grid : SpatialGrid :=
  ⟨⟨⟨0, 0, 0⟩, ⟨50, 50, 50⟩⟩, 10, [("a", c1Obj)], [((0, 0, 0), ["a"])]⟩

theorem c1Grid_eval : addObject c1Base c1Obj = (c1Grid, true) := by
  norm_num [addObject, checkCollision, candidateIds, bucketIds, dictLookup, dictInsert,
    addCells, addCellsStep, getCells, intRange, List.range_succ, c1Base, c1Obj, c1Grid]

theorem c1Grid_reach : ReachSG c1Grid := by
  rw [show c1Grid = (addObject c1Base c1Obj).1 from by rw [c1Grid_eval]]
  exact ReachSG.add c1Base c1Obj (ReachSG.init _ _ (by norm_num)) rfl
    (by norm_num [boxValid, c1Obj])

theorem checkCollision_equiv_naive_scan_witness :
    ReachSG c1Grid ∧ boxValid (⟨⟨0, 0, 0⟩, ⟨1, 1, 1⟩⟩ : BoundingBox) ∧
      (checkCollision c1Grid ⟨⟨0, 0, 0⟩, ⟨1, 1, 1⟩⟩ none =
          naiveCheckCollision c1Grid ⟨⟨0, 0, 0⟩, ⟨1, 1, 1⟩⟩ none ∧
        (checkCollision c1Grid ⟨⟨0, 0, 0⟩, ⟨1, 1, 1⟩⟩ none = true ↔
          ∃ p ∈ c1Grid.objects, some p.2.id ≠ none ∧
            (⟨⟨0, 0, 0⟩, ⟨1, 1, 1⟩⟩ : BoundingBox).intersects p.2.bounds = true)) :=
  ⟨c1Grid_reach, by norm_num [boxValid],
    checkCollision_equiv_naive_scan c1Grid_reach (by norm_num [boxValid]) none⟩

def c2Base : SpatialGrid := ⟨⟨⟨0, 0, 0⟩, ⟨50, 50, 50⟩⟩, 10, [], []⟩

def c2ObjA : PlacedObject := ⟨"a", "tree", ⟨1, 1, 1⟩, ⟨⟨1, 1, 1⟩, ⟨2, 2, 2⟩⟩⟩

def c2ObjB : PlacedObject := ⟨"b", "rock", ⟨1, 1, 1⟩, ⟨⟨1, 1, 1⟩, ⟨3, 3, 3⟩⟩⟩

def c2Grid : SpatialGrid :=
  ⟨⟨⟨0, 0, 0⟩, ⟨50, 50, 50⟩⟩, 10, [("a", c2ObjA)], [((0, 0, 0), ["a"])]⟩

theorem c2Grid_eval : addObject c2Base c2ObjA = (c2Grid, true) := by
  norm_num [addObject, checkCollision, candidateIds, bucketIds, dictLookup, dictInsert,
    addCells, addCellsStep, getCells, intRange, List.range_succ, c2Base, c2ObjA, c2Grid]

theorem c2Grid_reach : ReachSG c2Grid := by
  rw [show c2Grid = (addObject c2Base c2ObjA).1 from by rw [c2Grid_eval]]
  exact ReachSG.add c2Base c2ObjA (ReachSG.init _ _ (by norm_num)) rfl
    (by norm_num [boxValid, c2ObjA])

theorem addObject_rejects_overlap_witness :
    ReachSG c2Grid ∧ boxValid c2ObjB.bounds ∧
      (∃ p ∈ c2Grid.objects, p.2.id ≠ c2ObjB.id ∧
        c2ObjB.bounds.intersects p.2.bounds = true) ∧
      addObject c2Grid c2ObjB = (c2Grid, false) := by
  have hcol : ∃ p ∈ c2Grid.objects, p.2.id ≠ c2ObjB.id ∧
      c2ObjB.bounds.intersects p.2.bounds = true := by
    refine ⟨("a", c2ObjA), by simp [c2Grid], by decide, ?_⟩
    norm_num [BoundingBox.intersects, c2ObjA, c2ObjB]
  exact ⟨c2Grid_reach, by norm_num [boxValid, c2ObjB], hcol,
    addObject_rejects_overlap c2Grid_reach (by norm_num [boxValid, c2ObjB]) hcol⟩

def c5Base : SpatialGrid := ⟨⟨⟨0, 0, 0⟩, ⟨50, 50, 50⟩⟩, 10, [], []⟩

def c5Obj : PlacedObject := ⟨"a", "tree", ⟨1, 1, 1⟩, ⟨⟨1, 1, 1⟩, ⟨2, 2, 2⟩⟩⟩

theorem c5Grid_eval : addObject c5Base c5Obj =
    (⟨⟨⟨0, 0, 0⟩, ⟨50, 50, 50⟩⟩, 10, [("a", c5Obj)], [((0, 0, 0), ["a"])]⟩, true) := by
  norm_num [addObject, checkCollision, candidateIds, bucketIds, dictLookup, dictInsert,
    addCells, addCellsStep, getCells, intRange, List.range_succ, c5Base, c5Obj]

theorem addObject_removeObject_roundtrip_witness :
    ReachSG c5Base ∧ dictLookup c5Base.objects c5Obj.id = none ∧
      (addObject c5Base c5Obj).2 = true ∧
      removeObject (addObject c5Base c5Obj).1 c5Obj.id = (c5Base, true) := by
  have hre : ReachSG c5Base := ReachSG.init _ _ (by norm_num)
  have hadd : (addObject c5Base c5Obj).2 = true := by rw [c5Grid_eval]
  exact ⟨hre, rfl, hadd, addObject_removeObject_roundtrip hre rfl hadd⟩

theorem typeSkip_eq_false_iff (et : Option String) (ty : String) :
    typeSkip et ty = false ↔ ∀ t, et = some t → t ≠ "" → ty = t := by
  cases et with
  | none => simp [typeSkip]
  | some t =>
      by_cases ht : t = ""
      · subst ht
        simp [typeSkip]
      · simp only [typeSkip, if_neg ht, decide_eq_false_iff_not, not_not,
          Option.some.injEq]
        constructor
        · rintro h t2 rfl _
          exact h
        · intro h
          exact h t rfl ht

/-- C3 (amended): on every reachable `SpatialGrid` in which each placed
object's position lies inside its own bounds (as `procedural_placement`
guarantees), `find_nearby(p, r, entity_type)` returns exactly the placed
objects whose true Euclidean distance from `p` is at most `r` and which pass
the type filter; a supplied *empty-string* filter is ignored (Python
truthiness), exactly like an absent one. -/
theorem findNearby_radius_query_correct {g : SpatialGrid} (hg : ReachSG g)
    (hpos : ∀ p ∈ g.objects, p.2.bounds.contains p.2.position = true)
    (pos : Vector3) (r : ℚ) (et : Option String) (o : PlacedObject) :
    o ∈ findNearby g pos r et ↔
      ((∃ k, (k, o) ∈ g.objects) ∧ pos.distance_to o.position ≤ (r : ℝ) ∧
        ∀ t, et = some t → t ≠ "" → o.entity_type = t) := by
  rw [mem_findNearby_iff (reach_wfsg hg) hpos pos r et o]
  constructor
  · rintro ⟨hmem, hdist, hskip⟩
    exact ⟨hmem, (distLe_iff pos o.position r).mp hdist,
      (typeSkip_eq_false_iff et o.entity_type).mp hskip⟩
  · rintro ⟨hmem, hdist, hty⟩
    exact ⟨hmem, (distLe_iff pos o.position r).mpr hdist,
      (typeSkip_eq_false_iff et o.entity_type).mpr hty⟩

/-! ### Counterexample to claim C3 as stated

`find_nearby`'s broad phase looks up candidates in the cell buckets of each
object's *bounds*, while the narrow phase measures distance to the object's
*position*.  `add_object` accepts any `PlacedObject`, including one whose
position lies far outside its bounds; such an object is within radius of the
query point but is never produced as a candidate, so the claim's
no-false-negative guarantee fails on the code. -/

def c3Base : SpatialGrid := ⟨⟨⟨-50, 0, -50⟩, ⟨150, 150, 150⟩⟩, 10, [], []⟩

/-- An object whose position `(0,0,0)` lies far outside its own bounds
`[100,101]³`. -/
def c3Bad : PlacedObject := ⟨"far", "tree", ⟨0, 0, 0⟩, ⟨⟨100, 100, 100⟩, ⟨101, 101, 101⟩⟩⟩

def c3Grid : SpatialGrid :=
  ⟨⟨⟨-50, 0, -50⟩, ⟨150, 150, 150⟩⟩, 10, [("far", c3Bad)], [((10, 10, 10), ["far"])]⟩

theorem c3Grid_eval : addObject c3Base c3Bad = (c3Grid, true) := by
  norm_num [addObject, checkCollision, candidateIds, bucketIds, dictLookup, dictInsert,
    addCells, addCellsStep, getCells, intRange, List.range_succ, c3Base, c3Bad, c3Grid]

theorem c3Grid_reach : ReachSG c3Grid := by
  rw [show c3Grid = (addObject c3Base c3Bad).1 from by rw [c3Grid_eval]]
  exact ReachSG.add c3Base c3Bad (ReachSG.init _ _ (by norm_num)) rfl
    (by norm_num [boxValid, c3Bad])

/-- Counterexample to C3 as stated: on a grid populated via `add_object`, the
object `c3Bad` is placed and its position is within Euclidean distance 1 of
the query point, yet `find_nearby` returns the empty list. -/
theorem findNearby_false_negative_cex :
    ReachSG c3Grid ∧ (∃ k, (k, c3Bad) ∈ c3Grid.objects) ∧
      Vector3.distance_to ⟨0, 0, 0⟩ c3Bad.position ≤ ((1 : ℚ) : ℝ) ∧
      findNearby c3Grid ⟨0, 0, 0⟩ 1 none = [] := by
  refine ⟨c3Grid_reach, ⟨"far", by simp [c3Grid]⟩, ?_, ?_⟩
  · have h0 : Vector3.dist2 ⟨0, 0, 0⟩ c3Bad.position = 0 := by
      norm_num [Vector3.dist2, c3Bad]
    rw [Vector3.distance_to, h0]
    rw [show ((0 : ℚ) : ℝ) = 0 by norm_num, Real.sqrt_zero]
    norm_num
  · unfold findNearby
    dsimp only
    have hcells : getCells
        ⟨⟨(0 : ℚ) - 1, (0 : ℚ) - 1, (0 : ℚ) - 1⟩, ⟨(0 : ℚ) + 1, (0 : ℚ) + 1, (0 : ℚ) + 1⟩⟩
        c3Grid.cell_size =
        [(-1, -1, -1), (-1, -1, 0), (-1, 0, -1), (-1, 0, 0),
         (0, -1, -1), (0, -1, 0), (0, 0, -1), (0, 0, 0)] := by
      norm_num [getCells, intRange, List.range_succ, c3Grid,
        show Int.toNat 2 = 2 from rfl]
    rw [hcells]
    have hcand : candidateIds c3Grid
        [(-1, -1, -1), (-1, -1, 0), (-1, 0, -1), (-1, 0, 0),
         (0, -1, -1), (0, -1, 0), (0, 0, -1), (0, 0, 0)] = [] := by
      norm_num [candidateIds, bucketIds, dictLookup, c3Grid, Prod.ext_iff]
    rw [hcand, List.filterMap_nil]

def c3wBase : SpatialGrid := ⟨⟨⟨0, 0, 0⟩, ⟨50, 50, 50⟩⟩, 10, [], []⟩

def c3wObj : PlacedObject := ⟨"a", "tree", ⟨1, 1, 1⟩, ⟨⟨1, 1, 1⟩, ⟨2, 2, 2⟩⟩⟩

def c3wGrid : SpatialGrid :=
  ⟨⟨⟨0, 0, 0⟩, ⟨50, 50, 50⟩⟩, 10, [("a", c3wObj)], [((0, 0, 0), ["a"])]⟩

theorem c3wGrid_eval : addObject c3wBase c3wObj = (c3wGrid, true) := by
  norm_num [addObject, checkCollision, candidateIds, bucketIds, dictLookup, dictInsert,
    addCells, addCellsStep, getCells, intRange, List.range_succ, c3wBase, c3wObj, c3wGrid]

theorem c3wGrid_reach : ReachSG c3wGrid := by
  rw [show c3wGrid = (addObject c3wBase c3wObj).1 from by rw [c3wGrid_eval]]
  exact ReachSG.add c3wBase c3wObj (ReachSG.init _ _ (by norm_num)) rfl
    (by norm_num [boxValid, c3wObj])

theorem findNearby_radius_query_correct_witness :
    ReachSG c3wGrid ∧ (∀ p ∈ c3wGrid.objects, p.2.bounds.contains p.2.position = true) ∧
      (c3wObj ∈ findNearby c3wGrid ⟨0, 0, 0⟩ 9 (some "tree") ↔
        ((∃ k, (k, c3wObj) ∈ c3wGrid.objects) ∧
          Vector3.distance_to ⟨0, 0, 0⟩ c3wObj.position ≤ ((9 : ℚ) : ℝ) ∧
          ∀ t, (some "tree" : Option String) = some t → t ≠ "" →
            c3wObj.entity_type = t)) := by
  have hpos : ∀ p ∈ c3wGrid.objects, p.2.bounds.contains p.2.position = true := by
    intro p hp
    simp only [c3wGrid, List.mem_singleton] at hp
    subst hp
    norm_num [BoundingBox.contains, c3wObj]
  exact ⟨c3wGrid_reach, hpos,
    findNearby_radius_query_correct c3wGrid_reach hpos ⟨0, 0, 0⟩ 9 (some "tree") c3wObj⟩

theorem candidateBox_valid {p size : Vector3} (hx : 0 ≤ size.x) (hy : 0 ≤ size.y)
    (hz : 0 ≤ size.z) : boxValid (candidateBox p size) := by
  unfold candidateBox boxValid Vector3.sub Vector3.add
  exact ⟨by dsimp only; linarith, by dsimp only; linarith, by dsimp only; linarith⟩

theorem checkCollision_none_eq_false_iff {g : SpatialGrid} (hwf : WFSG g)
    {b : BoundingBox} (hb : boxValid b) :
    checkCollision g b none = false ↔
      ∀ q ∈ g.objects, b.intersects q.2.bounds = false := by
  rw [checkCollision_eq_naive hwf hb, naiveCheckCollision, List.any_eq_false]
  constructor <;> intro h q hq <;> have hh := h q hq <;> simpa using hh

/-- C4 (amended): on every reachable `SpatialGrid` whose placed objects all
have their position inside their own bounds, and for a nonnegative `size`,
whenever `find_placement` returns a position `p` (for any sequence of random
draws within the attempt budget): the candidate box built at `p` intersects
no placed object; if `rule.min_distance > 0` then no placed object lies
within `min_distance` of `p`; and if `rule.max_distance` is set then some
placed object lies within `max_distance` of `p`.  (When no candidate
survives, the function totally returns `none` — it is a pure query and never
touches the grid state.) -/
theorem findPlacement_respects_rules {g : SpatialGrid} (hg : ReachSG g)
    (hpos : ∀ p ∈ g.objects, p.2.bounds.contains p.2.position = true)
    {size : Vector3} (hsx : 0 ≤ size.x) (hsy : 0 ≤ size.y) (hsz : 0 ≤ size.z)
    (rule : PlacementRule) (draws : List (ℚ × ℚ × ℚ)) (p : Vector3)
    (hres : findPlacement g size rule draws = some p) :
    (∀ q ∈ g.objects, (candidateBox p size).intersects q.2.bounds = false) ∧
      (0 < rule.min_distance → ∀ q ∈ g.objects,
        ¬ Vector3.distance_to p q.2.position ≤ ((rule.min_distance : ℚ) : ℝ)) ∧
      (∀ md, rule.max_distance = some md → ∃ q ∈ g.objects,
        Vector3.distance_to p q.2.position ≤ ((md : ℚ) : ℝ)) := by
  have hwf := reach_wfsg hg
  induction draws with
  | nil => simp [findPlacement] at hres
  | cons d rest ih =>
      obtain ⟨x, z, y⟩ := d
      rw [findPlacement] at hres
      by_cases hcol : checkCollision g (candidateBox ⟨x, y, z⟩ size) none = true
      · rw [if_pos hcol] at hres
        exact ih hres
      · rw [if_neg hcol] at hres
        by_cases hmin : 0 < rule.min_distance ∧
            findNearby g ⟨x, y, z⟩ rule.min_distance none ≠ []
        · rw [if_pos hmin] at hres
          exact ih hres
        · rw [if_neg hmin] at hres
          push_neg at hmin
          have hsuccess : ∀ (hp : p = (⟨x, y, z⟩ : Vector3)),
              (∀ q ∈ g.objects, (candidateBox p size).intersects q.2.bounds = false) ∧
                (0 < rule.min_distance → ∀ q ∈ g.objects,
                  ¬ Vector3.distance_to p q.2.position ≤ ((rule.min_distance : ℚ) : ℝ)) := by
            rintro rfl
            constructor
            · exact (checkCollision_none_eq_false_iff hwf
                (candidateBox_valid hsx hsy hsz)).mp (Bool.of_not_eq_true hcol)
            · intro hmd q hq hd
              have hempty := hmin hmd
              have : q.2 ∈ findNearby g ⟨x, y, z⟩ rule.min_distance none := by
                rw [mem_findNearby_iff hwf hpos]
                exact ⟨⟨q.1, by obtain ⟨q1, q2⟩ := q; exact hq⟩,
                  (distLe_iff _ _ _).mpr hd, rfl⟩
              rw [hempty] at this
              cases this
          rcases hmd : rule.max_distance with _ | md
          · rw [hmd] at hres
            dsimp only at hres
            have hp : p = (⟨x, y, z⟩ : Vector3) := (Option.some.inj hres).symm
            obtain ⟨h1, h2⟩ := hsuccess hp
            exact ⟨h1, h2, fun md2 hmd2 => by cases hmd2⟩
          · rw [hmd] at ih hres
            dsimp only at hres
            by_cases hfe : findNearby g ⟨x, y, z⟩ md none = []
            · rw [if_pos hfe] at hres
              exact ih hres
            · rw [if_neg hfe] at hres
              have hp : p = (⟨x, y, z⟩ : Vector3) := (Option.some.inj hres).symm
              obtain ⟨h1, h2⟩ := hsuccess hp
              refine ⟨h1, h2, ?_⟩
              rintro md2 hmd2
              obtain rfl : md = md2 := Option.some.inj hmd2
              obtain ⟨o, ho⟩ := List.exists_mem_of_ne_nil _ hfe
              rw [mem_findNearby_iff hwf hpos] at ho
              obtain ⟨⟨k, hk⟩, hdl, _⟩ := ho
              subst hp
              exact ⟨(k, o), hk, (distLe_iff _ _ _).mp hdl⟩

/-! ### Counterexample to claim C4 as stated

Both rule checks of `find_placement` go through `find_nearby`, whose broad
phase uses each object's *bounds* while the rule is about distance to the
object's *position*.  An object with position near the candidate but bounds
far away is invisible to the broad phase, so `find_placement` returns a
position although a placed object lies within `min_distance` of it. -/

def c4Base : SpatialGrid := ⟨⟨⟨-50, 0, -50⟩, ⟨150, 150, 150⟩⟩, 10, [], []⟩

def c4Bad : PlacedObject :=
  ⟨"far", "tree", ⟨0, 0, 0⟩, ⟨⟨100, 100, 100⟩, ⟨101, 101, 101⟩⟩⟩

def c4Grid : SpatialGrid :=
  ⟨⟨⟨-50, 0, -50⟩, ⟨150, 150, 150⟩⟩, 10, [("far", c4Bad)], [((10, 10, 10), ["far"])]⟩

def c4Rule : PlacementRule := ⟨"rule", 5, none, none⟩

theorem c4Grid_eval : addObject c4Base c4Bad = (c4Grid, true) := by
  norm_num [addObject, checkCollision, candidateIds, bucketIds, dictLookup, dictInsert,
    addCells, addCellsStep, getCells, intRange, List.range_succ, c4Base, c4Bad, c4Grid]

theorem c4Grid_reach : ReachSG c4Grid := by
  rw [show c4Grid = (addObject c4Base c4Bad).1 from by rw [c4Grid_eval]]
  exact ReachSG.add c4Base c4Bad (ReachSG.init _ _ (by norm_num)) rfl
    (by norm_num [boxValid, c4Bad])

theorem c4_nearby_eval : findNearby c4Grid ⟨0, 0, 0⟩ 5 none = [] := by
  unfold findNearby
  dsimp only
  have hcells : getCells
      ⟨⟨(0 : ℚ) - 5, (0 : ℚ) - 5, (0 : ℚ) - 5⟩, ⟨(0 : ℚ) + 5, (0 : ℚ) + 5, (0 : ℚ) + 5⟩⟩
      c4Grid.cell_size =
      [(-1, -1, -1), (-1, -1, 0), (-1, 0, -1), (-1, 0, 0),
       (0, -1, -1), (0, -1, 0), (0, 0, -1), (0, 0, 0)] := by
    norm_num [getCells, intRange, List.range_succ, c4Grid,
      show Int.toNat 2 = 2 from rfl]
  rw [hcells]
  have hcand : candidateIds c4Grid
      [(-1, -1, -1), (-1, -1, 0), (-1, 0, -1), (-1, 0, 0),
       (0, -1, -1), (0, -1, 0), (0, 0, -1), (0, 0, 0)] = [] := by
    norm_num [candidateIds, bucketIds, dictLookup, c4Grid, Prod.ext_iff]
  rw [hcand, List.filterMap_nil]

theorem c4_collision_eval :
    checkCollision c4Grid (candidateBox ⟨0, 0, 0⟩ ⟨2, 2, 2⟩) none = false := by
  have hcb : candidateBox ⟨0, 0, 0⟩ ⟨2, 2, 2⟩ =
      (⟨⟨-1, 0, -1⟩, ⟨1, 2, 1⟩⟩ : BoundingBox) := by
    norm_num [candidateBox, Vector3.sub, Vector3.add]
  rw [hcb]
  unfold checkCollision
  dsimp only
  have hcells : getCells (⟨⟨-1, 0, -1⟩, ⟨1, 2, 1⟩⟩ : BoundingBox) c4Grid.cell_size =
      [(-1, 0, -1), (-1, 0, 0), (0, 0, -1), (0, 0, 0)] := by
    norm_num [getCells, intRange, List.range_succ, c4Grid,
      show Int.toNat 2 = 2 from rfl, show Int.toNat 1 = 1 from rfl]
  rw [hcells]
  have hcand : candidateIds c4Grid
      [(-1, 0, -1), (-1, 0, 0), (0, 0, -1), (0, 0, 0)] = [] := by
    norm_num [candidateIds, bucketIds, dictLookup, c4Grid, Prod.ext_iff]
  rw [hcand, List.any_nil]

/-- Counterexample to C4 as stated: `find_placement` returns position
`(0,0,0)` under a rule with `min_distance = 5 > 0`, although the placed
object `c4Bad`'s position is within distance 5 (indeed distance 0) of it. -/
theorem findPlacement_min_distance_cex :
    ReachSG c4Grid ∧ 0 < c4Rule.min_distance ∧
      findPlacement c4Grid ⟨2, 2, 2⟩ c4Rule [(0, 0, 0)] = some ⟨0, 0, 0⟩ ∧
      ∃ q ∈ c4Grid.objects,
        Vector3.distance_to ⟨0, 0, 0⟩ q.2.position ≤ ((c4Rule.min_distance : ℚ) : ℝ) := by
  refine ⟨c4Grid_reach, by norm_num [c4Rule], ?_, ?_⟩
  · rw [findPlacement]
    rw [if_neg (by rw [c4_collision_eval]; simp)]
    rw [if_neg (by rw [show c4Rule.min_distance = 5 from rfl, c4_nearby_eval]; simp)]
    rfl
  · refine ⟨("far", c4Bad), by simp [c4Grid], ?_⟩
    have h0 : Vector3.dist2 ⟨0, 0, 0⟩ c4Bad.position = 0 := by
      norm_num [Vector3.dist2, c4Bad]
    rw [Vector3.distance_to, h0, show ((0 : ℚ) : ℝ) = 0 by norm_num, Real.sqrt_zero]
    norm_num [c4Rule]

/-! ### Witness for the amended claim C4 -/

def c4wObj : PlacedObject := ⟨"a", "tree", ⟨30, 30, 30⟩, ⟨⟨30, 30, 30⟩, ⟨31, 31, 31⟩⟩⟩

def c4wGrid : SpatialGrid :=
  ⟨⟨⟨-50, 0, -50⟩, ⟨150, 150, 150⟩⟩, 10, [("a", c4wObj)], [((3, 3, 3), ["a"])]⟩

def c4wBase : SpatialGrid := ⟨⟨⟨-50, 0, -50⟩, ⟨150, 150, 150⟩⟩, 10, [], []⟩

theorem c4wGrid_eval : addObject c4wBase c4wObj = (c4wGrid, true) := by
  norm_num [addObject, checkCollision, candidateIds, bucketIds, dictLookup, dictInsert,
    addCells, addCellsStep, getCells, intRange, List.range_succ, c4wBase, c4wObj, c4wGrid]

theorem c4wGrid_reach : ReachSG c4wGrid := by
  rw [show c4wGrid = (addObject c4wBase c4wObj).1 from by rw [c4wGrid_eval]]
  exact ReachSG.add c4wBase c4wObj (ReachSG.init _ _ (by norm_num)) rfl
    (by norm_num [boxValid, c4wObj])

theorem c4w_nearby_eval : findNearby c4wGrid ⟨0, 0, 0⟩ 5 none = [] := by
  unfold findNearby
  dsimp only
  have hcells : getCells
      ⟨⟨(0 : ℚ) - 5, (0 : ℚ) - 5, (0 : ℚ) - 5⟩, ⟨(0 : ℚ) + 5, (0 : ℚ) + 5, (0 : ℚ) + 5⟩⟩
      c4wGrid.cell_size =
      [(-1, -1, -1), (-1, -1, 0), (-1, 0, -1), (-1, 0, 0),
       (0, -1, -1), (0, -1, 0), (0, 0, -1), (0, 0, 0)] := by
    norm_num [getCells, intRange, List.range_succ, c4wGrid,
      show Int.toNat 2 = 2 from rfl]
  rw [hcells]
  have hcand : candidateIds c4wGrid
      [(-1, -1, -1), (-1, -1, 0), (-1, 0, -1), (-1, 0, 0),
       (0, -1, -1), (0, -1, 0), (0, 0, -1), (0, 0, 0)] = [] := by
    norm_num [candidateIds, bucketIds, dictLookup, c4wGrid, Prod.ext_iff]
  rw [hcand, List.filterMap_nil]

theorem c4w_collision_eval :
    checkCollision c4wGrid (candidateBox ⟨0, 0, 0⟩ ⟨2, 2, 2⟩) none = false := by
  have hcb : candidateBox ⟨0, 0, 0⟩ ⟨2, 2, 2⟩ =
      (⟨⟨-1, 0, -1⟩, ⟨1, 2, 1⟩⟩ : BoundingBox) := by
    norm_num [candidateBox, Vector3.sub, Vector3.add]
  rw [hcb]
  unfold checkCollision
  dsimp only
  have hcells : getCells (⟨⟨-1, 0, -1⟩, ⟨1, 2, 1⟩⟩ : BoundingBox) c4wGrid.cell_size =
      [(-1, 0, -1), (-1, 0, 0), (0, 0, -1), (0, 0, 0)] := by
    norm_num [getCells, intRange, List.range_succ, c4wGrid,
      show Int.toNat 2 = 2 from rfl, show Int.toNat 1 = 1 from rfl]
  rw [hcells]
  have hcand : candidateIds c4wGrid
      [(-1, 0, -1), (-1, 0, 0), (0, 0, -1), (0, 0, 0)] = [] := by
    norm_num [candidateIds, bucketIds, dictLookup, c4wGrid, Prod.ext_iff]
  rw [hcand, List.any_nil]

def c4wRule : PlacementRule := ⟨"rule", 5, none, none⟩

theorem c4w_findPlacement_eval :
    findPlacement c4wGrid ⟨2, 2, 2⟩ c4wRule [(0, 0, 0)] = some ⟨0, 0, 0⟩ := by
  rw [findPlacement]
  rw [if_neg (by rw [c4w_collision_eval]; simp)]
  rw [if_neg (by rw [show c4wRule.min_distance = 5 from rfl, c4w_nearby_eval]; simp)]
  rfl

theorem findPlacement_respects_rules_witness :
    ReachSG c4wGrid ∧
      (∀ p ∈ c4wGrid.objects, p.2.bounds.contains p.2.position = true) ∧
      (0 : ℚ) ≤ 2 ∧
      findPlacement c4wGrid ⟨2, 2, 2⟩ c4wRule [(0, 0, 0)] = some ⟨0, 0, 0⟩ ∧
      ((∀ q ∈ c4wGrid.objects,
          (candidateBox ⟨0, 0, 0⟩ ⟨2, 2, 2⟩).intersects q.2.bounds = false) ∧
        (0 < c4wRule.min_distance → ∀ q ∈ c4wGrid.objects,
          ¬ Vector3.distance_to ⟨0, 0, 0⟩ q.2.position ≤
            ((c4wRule.min_distance : ℚ) : ℝ)) ∧
        (∀ md, c4wRule.max_distance = some md → ∃ q ∈ c4wGrid.objects,
          Vector3.distance_to ⟨0, 0, 0⟩ q.2.position ≤ ((md : ℚ) : ℝ))) := by
  have hpos : ∀ p ∈ c4wGrid.objects, p.2.bounds.contains p.2.position = true := by
    intro p hp
    simp only [c4wGrid, List.mem_singleton] at hp
    subst hp
    norm_num [BoundingBox.contains, c4wObj]
  exact ⟨c4wGrid_reach, hpos, by norm_num, c4w_findPlacement_eval,
    findPlacement_respects_rules c4wGrid_reach hpos (by norm_num) (by norm_num)
      (by norm_num) c4wRule [(0, 0, 0)] ⟨0, 0, 0⟩ c4w_findPlacement_eval⟩

/-! ## KnowledgeGraph (`knowledge_graph.py`)

The graph stores an ordered list of triplets plus three indexes (by subject
key, object key and predicate).  The indexes are strictly derived state —
the specification: "always exactly reconstructable from the triplet list" —
so the state is modelled as the triplet list alone and the indexes as the
computed views `subjectBucket` / `objectBucket` / `predicateBucket`;
`subjectBucket_addTriplet` (and siblings) prove that the incremental index
maintenance performed by `add_triplet` coincides with the recomputation
`_rebuild_indexes` performs.

`remove_entity` deduplicates by *Python object identity* (`id(triplet)`).
To model identity, each stored triplet carries a `Nat` tag: adding the same
Python object twice yields two entries with the same tag, while distinct
objects carry distinct tags.  All operations' results are stated on the
tagged entries. -/

structure EntityReference where
  type : String
  id : String
deriving DecidableEq

/-- `RelationMetadata`: optional typed hints on a relationship.  Floats are
modelled as exact rationals; the free-form `custom` dict is modelled as a
string map.  No operation of the class ever reads these fields. -/
structure RelationMetadata where
  optional : Option Bool
  chance : Option ℚ
  level_required : Option ℤ
  weight : Option ℚ
  priority : Option ℤ
  coordinates : Option (List (String × ℚ))
  distance : Option ℚ
  schedule : Option String
  start_date : Option String
  end_date : Option String
  custom : Option (List (String × String))
deriving DecidableEq

structure Triplet where
  subject : EntityReference
  predicate : String
  object : EntityReference
  metadata : Option RelationMetadata
deriving DecidableEq

/-- The knowledge-graph state: the ordered triplet list, each entry tagged
with a `Nat` modelling the Python object identity of the stored triplet. -/
abbrev KG := List (Nat × Triplet)

/-- The `f"{type}:{id}"` index key. -/
def refKey (e : EntityReference) : String := e.type ++ ":" ++ e.id

/-- `KnowledgeGraph.add_triplet`: append to the triplet list (and append to
the three index buckets, which here are derived views). -/
def addTriplet (kg : KG) (tok : Nat) (t : Triplet) : KG := kg ++ [(tok, t)]

/-- The `_subject_index` bucket for a key, as derived state (the entries
whose subject key matches, in insertion order — exactly what both the
incremental maintenance and `_rebuild_indexes` produce). -/
def subjectBucket (kg : KG) (k : String) : KG :=
  kg.filter fun p => decide (refKey p.2.subject = k)

/-- The `_object_index` bucket for a key, as derived state. -/
def objectBucket (kg : KG) (k : String) : KG :=
  kg.filter fun p => decide (refKey p.2.object = k)

/-- The `_predicate_index` bucket for a predicate, as derived state. -/
def predicateBucket (kg : KG) (pr : String) : KG :=
  kg.filter fun p => decide (p.2.predicate = pr)

theorem subjectBucket_addTriplet (kg : KG) (tok : Nat) (t : Triplet) (k : String) :
    subjectBucket (addTriplet kg tok t) k =
      subjectBucket kg k ++ if refKey t.subject = k then [(tok, t)] else [] := by
  unfold subjectBucket addTriplet
  rw [List.filter_append]
  congr 1
  by_cases h : refKey t.subject = k <;> simp [h]

theorem objectBucket_addTriplet (kg : KG) (tok : Nat) (t : Triplet) (k : String) :
    objectBucket (addTriplet kg tok t) k =
      objectBucket kg k ++ if refKey t.object = k then [(tok, t)] else [] := by
  unfold objectBucket addTriplet
  rw [List.filter_append]
  congr 1
  by_cases h : refKey t.object = k <;> simp [h]

theorem predicateBucket_addTriplet (kg : KG) (tok : Nat) (t : Triplet) (pr : String) :
    predicateBucket (addTriplet kg tok t) pr =
      predicateBucket kg pr ++ if t.predicate = pr then [(tok, t)] else [] := by
  unfold predicateBucket addTriplet
  rw [List.filter_append]
  congr 1
  by_cases h : t.predicate = pr <;> simp [h]

/-- `KnowledgeGraph.find(subject, predicate, object)`: candidate selection
from the subject index if `subject` is given, else the object index, else
the predicate index, else the whole list — then the exact-match post-filter
on all provided criteria.  Note the Python truthiness tests: a supplied
`EntityReference` (a model instance) is always truthy, but an *empty-string*
predicate is falsy, so `predicate=""` neither selects candidates nor
filters. -/
def findKG (kg : KG) (subject : Option EntityReference) (predicate : Option String)
    (object : Option EntityReference) : KG :=
  let candidates :=
    match subject with
    | some s => subjectBucket kg (refKey s)
    | none =>
        match object with
        | some o => objectBucket kg (refKey o)
        | none =>
            match predicate with
            | some pv => if pv = "" then kg else predicateBucket kg pv
            | none => kg
  candidates.filter fun p =>
    (match subject with
     | some s => decide (p.2.subject.type = s.type ∧ p.2.subject.id = s.id)
     | none => true) &&
    (match predicate with
     | some pv => if pv = "" then true else decide (p.2.predicate = pv)
     | none => true) &&
    (match object with
     | some o => decide (p.2.object.type = o.type ∧ p.2.object.id = o.id)
     | none => true)

/-- `KnowledgeGraph.get_related(entity, predicate, direction)`. -/
def getRelated (kg : KG) (entity : EntityReference) (predicate : Option String)
    (direction : String) : List EntityReference :=
  if direction = "outgoing" then
    (findKG kg (some entity) predicate none).map fun p => p.2.object
  else if direction = "incoming" then
    (findKG kg none predicate (some entity)).map fun p => p.2.subject
  else
    ((findKG kg (some entity) predicate none).map fun p => p.2.object) ++
      ((findKG kg none predicate (some entity)).map fun p => p.2.subject)

/-- `KnowledgeGraph.get_relationship(subject, object)`: first matching
triplet in insertion order, if any. -/
def getRelationship (kg : KG) (s o : EntityReference) : Option Triplet :=
  ((findKG kg (some s) none (some o)).head?).map fun p => p.2

/-- Does the triplet involve the entity as subject or object (the match
condition of `remove_entity`)? -/
def involves (t : Triplet) (e : EntityReference) : Bool :=
  decide ((t.subject.type = e.type ∧ t.subject.id = e.id) ∨
    (t.object.type = e.type ∧ t.object.id = e.id))

/-- `KnowledgeGraph.remove_entity(entity)`: build the set of Python object
identities (here: tags) of the matching triplets, keep the entries whose
identity is not in the set, rebuild the (derived) indexes, and return the
cardinality of the identity set. -/
def removeEntity (kg : KG) (e : EntityReference) : KG × Nat :=
  let toRemove := ((kg.filter fun p => involves p.2 e).map Prod.fst).dedup
  (kg.filter fun p => decide (p.1 ∉ toRemove), toRemove.length)

/-- The `"triplets"` field of `KnowledgeGraph.stats()`:
`len(self.triplets)`. -/
def statsTriplets (kg : KG) : Nat := kg.length

/-! ### Claim C6: `find` is an exact conjunction of the provided filters -/

/-- C6 (amended): for every `KnowledgeGraph` and every combination of the
optional arguments in which a supplied predicate is non-empty, `find`
returns exactly the stored triplets satisfying every provided filter
simultaneously (a conjunction, never a union), regardless of which index
supplied the candidate set.  (A supplied *empty-string* predicate is falsy
in Python and is treated as absent.) -/
theorem findKG_exact_conjunction (kg : KG) (s : Option EntityReference)
    (pr : Option String) (o : Option EntityReference)
    (hpr : ∀ v, pr = some v → v ≠ "") :
    findKG kg s pr o = kg.filter fun p =>
      (match s with
       | some sv => decide (p.2.subject.type = sv.type ∧ p.2.subject.id = sv.id)
       | none => true) &&
      (match pr with
       | some pv => decide (p.2.predicate = pv)
       | none => true) &&
      (match o with
       | some ov => decide (p.2.object.type = ov.type ∧ p.2.object.id = ov.id)
       | none => true) := by
  rcases pr with _ | pv
  · unfold findKG
    rcases s with _ | sv
    · rcases o with _ | ov
      · rfl
      · dsimp only
        unfold objectBucket
        rw [List.filter_filter]
        refine List.filter_congr fun p _ => ?_
        by_cases h : p.2.object.type = ov.type ∧ p.2.object.id = ov.id
        · have hkey : refKey p.2.object = refKey ov := by
            rw [refKey, refKey, h.1, h.2]
          simp [h, hkey]
        · simp [h]
    · dsimp only
      unfold subjectBucket
      rw [List.filter_filter]
      refine List.filter_congr fun p _ => ?_
      by_cases h : p.2.subject.type = sv.type ∧ p.2.subject.id = sv.id
      · have hkey : refKey p.2.subject = refKey sv := by
          rw [refKey, refKey, h.1, h.2]
        simp [h, hkey]
      · simp [h]
  · have hv : pv ≠ "" := hpr pv rfl
    unfold findKG
    rcases s with _ | sv
    · rcases o with _ | ov
      · dsimp only
        rw [if_neg hv]
        unfold predicateBucket
        rw [List.filter_filter]
        refine List.filter_congr fun p _ => ?_
        rw [if_neg hv]
        by_cases h : p.2.predicate = pv <;> simp [h]
      · dsimp only
        unfold objectBucket
        rw [List.filter_filter]
        refine List.filter_congr fun p _ => ?_
        rw [if_neg hv]
        by_cases h : p.2.object.type = ov.type ∧ p.2.object.id = ov.id
        · have hkey : refKey p.2.object = refKey ov := by
            rw [refKey, refKey, h.1, h.2]
          simp [h, hkey]
        · simp [h]
    · dsimp only
      unfold subjectBucket
      rw [List.filter_filter]
      refine List.filter_congr fun p _ => ?_
      rw [if_neg hv]
      by_cases h : p.2.subject.type = sv.type ∧ p.2.subject.id = sv.id
      · have hkey : refKey p.2.subject = refKey sv := by
          rw [refKey, refKey, h.1, h.2]
        simp [h, hkey]
      · simp [h]

def c6t : Triplet := ⟨⟨"Quest", "q1"⟩, "requires", ⟨"NPC", "n1"⟩, none⟩

def c6kg : KG := [(0, c6t)]

/-- Counterexample to C6 as stated: supplying the (legal) empty-string
predicate filter returns the stored triplet whose predicate is
`"requires" ≠ ""`, not the empty list the exact-match post-filter would
produce — Python's truthiness test skips both the candidate selection and
the post-filter for a falsy predicate. -/
theorem findKG_empty_predicate_cex :
    findKG c6kg none (some "") none = [(0, c6t)] ∧
      c6t.predicate ≠ "" ∧
      c6kg.filter (fun p => decide (p.2.predicate = "")) = [] := by
  refine ⟨rfl, by decide, by decide⟩

def c6wt1 : Triplet := ⟨⟨"Quest", "q1"⟩, "requires", ⟨"NPC", "n1"⟩, none⟩

def c6wt2 : Triplet := ⟨⟨"Quest", "q1"⟩, "rewards", ⟨"Item", "i1"⟩, none⟩

def c6wkg : KG := [(0, c6wt1), (1, c6wt2)]

theorem findKG_exact_conjunction_witness :
    (∀ v, (some "requires" : Option String) = some v → v ≠ "") ∧
      findKG c6wkg (some ⟨"Quest", "q1"⟩) (some "requires") none =
        c6wkg.filter fun p =>
          (decide (p.2.subject.type = "Quest" ∧ p.2.subject.id = "q1")) &&
          (decide (p.2.predicate = "requires")) && true := by
  have hpr : ∀ v, (some "requires" : Option String) = some v → v ≠ "" := by
    rintro v hv
    cases hv
    decide
  exact ⟨hpr, findKG_exact_conjunction c6wkg (some ⟨"Quest", "q1"⟩) (some "requires")
    none hpr⟩

/-! ### Claim C7: completeness of `remove_entity` -/

theorem length_filter_add_length_filter_not {α : Type} (l : List α) (p : α → Bool) :
    (l.filter p).length + (l.filter fun a => !(p a)).length = l.length := by
  induction l with
  | nil => rfl
  | cons x xs ih =>
      by_cases h : p x = true <;>
        simp only [List.filter_cons, h, Bool.not_true, Bool.not_false, if_pos,
          if_neg, Bool.false_eq_true, not_false_eq_true, List.length_cons] <;>
        omega

theorem mem_eq_of_fst_eq_of_nodup {kg : KG} (hnd : (kg.map Prod.fst).Nodup)
    {p q : Nat × Triplet} (hp : p ∈ kg) (hq : q ∈ kg) (h : p.1 = q.1) : p = q := by
  have h1 : dictLookup kg p.1 = some p.2 :=
    dictLookup_of_mem_nodup hnd (by obtain ⟨p1, p2⟩ := p; exact hp)
  have h2 : dictLookup kg q.1 = some q.2 :=
    dictLookup_of_mem_nodup hnd (by obtain ⟨q1, q2⟩ := q; exact hq)
  rw [h, h2] at h1
  obtain ⟨p1, p2⟩ := p
  obtain ⟨q1, q2⟩ := q
  simp only at h
  subst h
  simp only [Option.some.injEq] at h1
  rw [h1]

/-- After `remove_entity(e)`, no surviving entry involves `e` — this part
holds for every graph state, aliased duplicates included. -/
theorem removeEntity_no_survivor (kg : KG) (e : EntityReference) :
    ∀ p ∈ (removeEntity kg e).1, involves p.2 e = false := by
  intro p hp
  unfold removeEntity at hp
  rw [List.mem_filter] at hp
  obtain ⟨hpkg, hpdec⟩ := hp
  rw [decide_eq_true_eq] at hpdec
  by_contra hinv
  rw [Bool.not_eq_false] at hinv
  exact hpdec (List.mem_dedup.mpr (List.mem_map.mpr
    ⟨p, List.mem_filter.mpr ⟨hpkg, hinv⟩, rfl⟩))

/-- C7 (amended): after `remove_entity(e)` on a graph whose stored triplets
are pairwise-distinct Python objects (no aliased duplicate adds, modelled as
distinct identity tags), `find(subject=e)` and `find(object=e)` return the
empty list — this part holds unconditionally — and the `stats()["triplets"]`
count decreases by exactly the integer `remove_entity` returns. -/
theorem removeEntity_complete (kg : KG) (e : EntityReference)
    (hnd : (kg.map Prod.fst).Nodup) :
    findKG (removeEntity kg e).1 (some e) none none = [] ∧
      findKG (removeEntity kg e).1 none none (some e) = [] ∧
      statsTriplets (removeEntity kg e).1 + (removeEntity kg e).2 =
        statsTriplets kg := by
  have hsurv := removeEntity_no_survivor kg e
  refine ⟨?_, ?_, ?_⟩
  · unfold findKG subjectBucket
    dsimp only
    rw [List.filter_filter, List.filter_eq_nil_iff]
    intro p hp
    have hinv : involves p.2 e = false := hsurv p hp
    rw [involves] at hinv
    simp only [decide_eq_false_iff_not, not_or] at hinv
    simp [hinv.1]
  · unfold findKG objectBucket
    dsimp only
    rw [List.filter_filter, List.filter_eq_nil_iff]
    intro p hp
    have hinv : involves p.2 e = false := hsurv p hp
    rw [involves] at hinv
    simp only [decide_eq_false_iff_not, not_or] at hinv
    simp [hinv.2]
  · unfold removeEntity statsTriplets
    dsimp only
    have hdnd : ((kg.filter fun p => involves p.2 e).map Prod.fst).Nodup :=
      List.Nodup.sublist (List.Sublist.map Prod.fst (List.filter_sublist _)) hnd
    rw [List.dedup_eq_self.mpr hdnd, List.length_map]
    have hkeep : (kg.filter fun p =>
        decide (p.1 ∉ (kg.filter fun q => involves q.2 e).map Prod.fst)) =
        kg.filter fun p => !(involves p.2 e) := by
      refine List.filter_congr fun p hp => ?_
      by_cases hinv : involves p.2 e = true
      · have : p.1 ∈ (kg.filter fun q => involves q.2 e).map Prod.fst :=
          List.mem_map.mpr ⟨p, List.mem_filter.mpr ⟨hp, hinv⟩, rfl⟩
        simp [this, hinv]
      · have : p.1 ∉ (kg.filter fun q => involves q.2 e).map Prod.fst := by
          intro hmem
          obtain ⟨q, hq, hq1⟩ := List.mem_map.mp hmem
          obtain ⟨hqkg, hqinv⟩ := List.mem_filter.mp hq
          have : q = p := mem_eq_of_fst_eq_of_nodup hnd hqkg hp hq1
          rw [this] at hqinv
          exact hinv hqinv
        simp [this, Bool.not_eq_true _ ▸ hinv]
    rw [hkeep, Nat.add_comm]
    exact length_filter_add_length_filter_not kg fun p => involves p.2 e

def c7t : Triplet := ⟨⟨"Quest", "q1"⟩, "requires", ⟨"NPC", "n1"⟩, none⟩

/-- The graph obtained by calling `add_triplet` twice with the *same*
Triplet object (both entries share identity tag 0). -/
def c7kg : KG := [(0, c7t), (0, c7t)]

/-- Counterexample to C7 as stated: with the same triplet object added
twice, `remove_entity` removes both list entries (the count drops from 2 to
0) but returns `len(to_remove) = 1`, the number of distinct object
identities — so the triplet count does not decrease by the returned
integer. -/
theorem removeEntity_aliased_count_cex :
    (removeEntity c7kg ⟨"NPC", "n1"⟩).2 = 1 ∧
      statsTriplets c7kg = 2 ∧
      statsTriplets (removeEntity c7kg ⟨"NPC", "n1"⟩).1 = 0 ∧
      ¬ (statsTriplets (removeEntity c7kg ⟨"NPC", "n1"⟩).1 +
          (removeEntity c7kg ⟨"NPC", "n1"⟩).2 = statsTriplets c7kg) := by
  refine ⟨rfl, rfl, rfl, by decide⟩

def c7wt1 : Triplet := ⟨⟨"Quest", "q1"⟩, "requires", ⟨"NPC", "n1"⟩, none⟩

def c7wt2 : Triplet := ⟨⟨"Quest", "q2"⟩, "rewards", ⟨"Item", "i1"⟩, none⟩

def c7wkg : KG := [(0, c7wt1), (1, c7wt2)]

theorem removeEntity_complete_witness :
    ((c7wkg.map Prod.fst).Nodup) ∧
      (findKG (removeEntity c7wkg ⟨"NPC", "n1"⟩).1 (some ⟨"NPC", "n1"⟩) none none = [] ∧
        findKG (removeEntity c7wkg ⟨"NPC", "n1"⟩).1 none none (some ⟨"NPC", "n1"⟩) = [] ∧
        statsTriplets (removeEntity c7wkg ⟨"NPC", "n1"⟩).1 +
          (removeEntity c7wkg ⟨"NPC", "n1"⟩).2 = statsTriplets c7wkg) :=
  ⟨by decide, removeEntity_complete c7wkg ⟨"NPC", "n1"⟩ (by decide)⟩

/-! ### Claim C10: `remove_entity` of an uninvolved entity is a no-op -/

/-- C10: removing an entity that appears as neither subject nor object of
any stored triplet returns 0 and leaves the graph state unchanged — the
triplet list is the same sequence, so every subsequent `find`,
`get_related`, `get_relationship` and `stats` call returns the same results
as before (all of them are functions of that state). -/
theorem removeEntity_absent_noop (kg : KG) (e : EntityReference)
    (h : ∀ p ∈ kg, involves p.2 e = false) :
    removeEntity kg e = (kg, 0) := by
  unfold removeEntity
  have hfil : (kg.filter fun p => involves p.2 e) = [] :=
    List.filter_eq_nil_iff.mpr fun p hp => by simp [h p hp]
  rw [hfil]
  simp

def c10t : Triplet := ⟨⟨"Quest", "q1"⟩, "requires", ⟨"NPC", "n1"⟩, none⟩

def c10kg : KG := [(0, c10t)]

theorem removeEntity_absent_noop_witness :
    (∀ p ∈ c10kg, involves p.2 ⟨"NPC", "n2"⟩ = false) ∧
      removeEntity c10kg ⟨"NPC", "n2"⟩ = (c10kg, 0) :=
  ⟨by decide, removeEntity_absent_noop c10kg ⟨"NPC", "n2"⟩ (by decide)⟩

/-! ## Leveling system (`leveling_system.py`)

Python floats are embedded as exact real numbers (the curve uses
`level ** exponent`, i.e. real exponentiation); `int()` truncates toward
zero. -/

/-- Python `int()` applied to a real value: truncation toward zero. -/
noncomputable def pyInt (x : ℝ) : ℤ := if 0 ≤ x then ⌊x⌋ else ⌈x⌉

/-- `XPCurve` configuration (pydantic model). -/
structure XPCurve where
  curve_type : String
  base_xp : ℤ
  exponent : ℝ
  level_multiplier : ℝ

/-- `ContentBudget` percentages (pydantic model; float literals embedded as
the rationals they denote). -/
structure ContentBudget where
  main_quests_percent : ℚ
  side_quests_percent : ℚ
  dungeons_percent : ℚ
  events_percent : ℚ
  grinding_percent : ℚ

/-- The pydantic defaults of `ContentBudget()`. -/
def defaultBudget : ContentBudget := ⟨35/100, 25/100, 20/100, 10/100, 10/100⟩

/-- `_exponential_curve`: `int(base_xp * (level ** exponent) * level_multiplier)`. -/
noncomputable def exponentialCurve (c : XPCurve) (level : ℕ) : ℤ :=
  pyInt ((c.base_xp : ℝ) * (level : ℝ) ^ c.exponent * c.level_multiplier)

/-- `_linear_curve`. -/
noncomputable def linearCurve (c : XPCurve) (level : ℕ) : ℤ :=
  pyInt ((c.base_xp : ℝ) * (level : ℝ) * c.level_multiplier)

/-- `_logarithmic_curve` (`math.log` is the natural logarithm). -/
noncomputable def logarithmicCurve (c : XPCurve) (level : ℕ) : ℤ :=
  pyInt ((c.base_xp : ℝ) * Real.log ((level : ℝ) + 1) * (level : ℝ) * c.level_multiplier)

/-- The curve dispatch of `_calculate_xp_table`; an unknown curve type falls
back to the exponential curve. -/
noncomputable def curveXp (c : XPCurve) (level : ℕ) : ℤ :=
  if c.curve_type = "exponential" then exponentialCurve c level
  else if c.curve_type = "linear" then linearCurve c level
  else if c.curve_type = "logarithmic" then logarithmicCurve c level
  else exponentialCurve c level

/-- `LevelingSystem.__init__` configuration; `xp_per_level` and
`total_xp_needed` are computed from it (`xpTable`, `totalXpNeeded`). -/
structure LevelingSystem where
  max_level : ℕ
  xp_curve : XPCurve
  content_budget : ContentBudget

/-- `_calculate_xp_table`: the dict `level -> curve_fn(level)` built over
`range(1, max_level + 1)` in ascending key order. -/
noncomputable def xpTable (s : LevelingSystem) : List (ℕ × ℤ) :=
  (List.range s.max_level).map fun i => (i + 1, curveXp s.xp_curve (i + 1))

/-- `total_xp_needed = sum(self.xp_per_level.values())`. -/
noncomputable def totalXpNeeded (s : LevelingSystem) : ℤ :=
  ((xpTable s).map Prod.snd).sum

/-- `get_level_range_xp`: sum of `xp_per_level[level]` over
`range(min_level, max_level + 1)`. A level outside the table raises
`KeyError` in the source; the embedding reads it as 0 — no claim exercises
that case (both bounds stay within `1..max_level`). -/
noncomputable def getLevelRangeXp (s : LevelingSystem) (lo hi : ℕ) : ℤ :=
  ((List.range (hi + 1 - lo)).map fun i => (dictLookup (xpTable s) (lo + i)).getD 0).sum

/-- One category entry of `calculate_content_requirements`. -/
structure CategoryReq where
  total_xp : ℤ
  count : ℤ
  avg_xp : ℤ

/-- `int(self.total_xp_needed * percent)`, the `total_xp` of one budget
category. -/
noncomputable def categoryXp (s : LevelingSystem) (percent : ℚ) : ℤ :=
  pyInt ((totalXpNeeded s : ℝ) * (percent : ℝ))

/-- `calculate_content_requirements`: the budget dict over the four content
categories; `//` is Python floor division (`Int.fdiv`), the average XP
constants are 500/200/1000/300. -/
noncomputable def contentRequirements (s : LevelingSystem) : List (String × CategoryReq) :=
  [("main_quests",
      ⟨categoryXp s s.content_budget.main_quests_percent,
        Int.fdiv (categoryXp s s.content_budget.main_quests_percent) 500, 500⟩),
   ("side_quests",
      ⟨categoryXp s s.content_budget.side_quests_percent,
        Int.fdiv (categoryXp s s.content_budget.side_quests_percent) 200, 200⟩),
   ("dungeons",
      ⟨categoryXp s s.content_budget.dungeons_percent,
        Int.fdiv (categoryXp s s.content_budget.dungeons_percent) 1000, 1000⟩),
   ("events",
      ⟨categoryXp s s.content_budget.events_percent,
        Int.fdiv (categoryXp s s.content_budget.events_percent) 300, 300⟩)]

/-! ### Leveling lemmas -/

theorem pyInt_eq_floor {x : ℝ} (h : 0 ≤ x) : pyInt x = ⌊x⌋ := by
  unfold pyInt
  exact if_pos h

theorem pyInt_eq_ceil {x : ℝ} (h : ¬ 0 ≤ x) : pyInt x = ⌈x⌉ := by
  unfold pyInt
  exact if_neg h

theorem rpow_three_half (l : ℕ) (hl : 1 ≤ l) :
    (l : ℝ) ^ (1.5 : ℝ) = (l : ℝ) * Real.sqrt l := by
  have hl' : 0 < l := hl
  have hl0 : (0 : ℝ) < l := by exact_mod_cast hl'
  rw [show (1.5 : ℝ) = 1 + 1 / 2 by norm_num, Real.rpow_add hl0, Real.rpow_one,
    ← Real.sqrt_eq_rpow]

/-- Lookup in an association list whose keys are `a, a+1, ..., a+n-1` in
order. -/
theorem dictLookup_rangeTable (f : ℕ → ℤ) (a n l : ℕ) :
    dictLookup ((List.range n).map fun i => (a + i, f (a + i))) l =
      if a ≤ l ∧ l < a + n then some (f l) else none := by
  induction n generalizing a with
  | zero =>
    rw [if_neg (by omega)]
    rfl
  | succ n ih =>
    rw [List.range_succ_eq_map, List.map_cons, List.map_map, dictLookup_cons]
    by_cases h : a + 0 = l
    · rw [if_pos h, if_pos (by omega), ← h]
    · rw [if_neg h]
      have hmap : (List.range n).map ((fun i => (a + i, f (a + i))) ∘ Nat.succ) =
          (List.range n).map fun i => (a + 1 + i, f (a + 1 + i)) := by
        apply List.map_congr_left
        intro i _
        have hai : a + Nat.succ i = a + 1 + i := by omega
        simp only [Function.comp_apply, hai]
      rw [hmap, ih]
      by_cases h2 : a + 1 ≤ l ∧ l < a + 1 + n
      · rw [if_pos h2, if_pos (by omega)]
      · rw [if_neg h2, if_neg (by omega)]

/-- `xp_per_level[l]` is defined exactly for `1 <= l <= max_level` and holds
the curve value. -/
theorem dictLookup_xpTable (s : LevelingSystem) (l : ℕ) :
    dictLookup (xpTable s) l =
      if 1 ≤ l ∧ l ≤ s.max_level then some (curveXp s.xp_curve l) else none := by
  unfold xpTable
  have hmap : ((List.range s.max_level).map fun i => (i + 1, curveXp s.xp_curve (i + 1))) =
      (List.range s.max_level).map fun i => (1 + i, curveXp s.xp_curve (1 + i)) := by
    apply List.map_congr_left
    intro i _
    rw [Nat.add_comm i 1]
  rw [hmap, dictLookup_rangeTable]
  by_cases h : 1 ≤ l ∧ l < 1 + s.max_level
  · rw [if_pos h, if_pos (by omega)]
  · rw [if_neg h, if_neg (by omega)]

/-- `total_xp_needed` is the sum of the table entries for levels
`1..max_level`. -/
theorem totalXpNeeded_eq_lookup_sum (s : LevelingSystem) :
    totalXpNeeded s =
      ((List.range s.max_level).map fun i => (dictLookup (xpTable s) (i + 1)).getD 0).sum := by
  have hmap : (xpTable s).map Prod.snd =
      (List.range s.max_level).map fun i => curveXp s.xp_curve (i + 1) := by
    unfold xpTable
    rw [List.map_map]
    rfl
  rw [totalXpNeeded, hmap]
  congr 1
  apply List.map_congr_left
  intro i hi
  have him : i < s.max_level := List.mem_range.mp hi
  rw [dictLookup_xpTable, if_pos ⟨by omega, by omega⟩]
  rfl

/-- `get_level_range_xp(1, max_level)` sums the whole table. -/
theorem getLevelRangeXp_full (s : LevelingSystem) :
    getLevelRangeXp s 1 s.max_level = totalXpNeeded s := by
  rw [totalXpNeeded_eq_lookup_sum, getLevelRangeXp,
    show s.max_level + 1 - 1 = s.max_level from by omega]
  congr 1
  apply List.map_congr_left
  intro i _
  rw [Nat.add_comm 1 i]

theorem hundred_rpow_eq_sqrt (l : ℕ) (hl : 1 ≤ l) :
    (100 : ℝ) * (l : ℝ) ^ (1.5 : ℝ) = Real.sqrt (10000 * (l : ℝ) ^ 3) := by
  rw [rpow_three_half l hl,
    show (10000 : ℝ) * (l : ℝ) ^ 3 = ((100 : ℝ) * l) ^ 2 * l by ring,
    Real.sqrt_mul (by positivity), Real.sqrt_sq (by positivity)]
  ring

/-- Exact-real evaluation of `floor(100 * l ** 1.5)` from integer square
bounds on `10000 * l^3`. -/
theorem floor_hundred_rpow (l v : ℕ) (hl : 1 ≤ l) (h1 : v ^ 2 ≤ 10000 * l ^ 3)
    (h2 : 10000 * l ^ 3 < (v + 1) ^ 2) :
    ⌊(100 : ℝ) * (l : ℝ) ^ (1.5 : ℝ)⌋ = (v : ℤ) := by
  have hN : (0 : ℝ) ≤ 10000 * (l : ℝ) ^ 3 := by positivity
  rw [hundred_rpow_eq_sqrt l hl, Int.floor_eq_iff]
  constructor
  · rw [show (((v : ℕ) : ℤ) : ℝ) = ((v : ℕ) : ℝ) by push_cast; ring,
      Real.le_sqrt (by positivity) hN]
    exact_mod_cast h1
  · have hlt : Real.sqrt (10000 * (l : ℝ) ^ 3) < ((v : ℝ) + 1) := by
      rw [Real.sqrt_lt' (by positivity)]
      exact_mod_cast h2
    push_cast
    linarith

/-- The scenario curve: exponential, `base_xp=100`, `exponent=1.5`,
`level_multiplier=1.0`. -/
noncomputable def c8Curve : XPCurve := ⟨"exponential", 100, 1.5, 1⟩

/-- The scenario system: `max_level=10` with the scenario curve and default
budget. -/
noncomputable def c8System : LevelingSystem := ⟨10, c8Curve, defaultBudget⟩

/-- Evaluation of the scenario curve at one level from integer square
bounds. -/
theorem c8_curve_eval (l v : ℕ) (hl : 1 ≤ l) (h1 : v ^ 2 ≤ 10000 * l ^ 3)
    (h2 : 10000 * l ^ 3 < (v + 1) ^ 2) :
    curveXp c8Curve l = (v : ℤ) := by
  have hx : ((c8Curve.base_xp : ℝ)) * (l : ℝ) ^ c8Curve.exponent * c8Curve.level_multiplier
      = (100 : ℝ) * (l : ℝ) ^ (1.5 : ℝ) := by
    norm_num [c8Curve]
  rw [show curveXp c8Curve l = exponentialCurve c8Curve l from if_pos rfl]
  unfold exponentialCurve
  rw [hx, pyInt_eq_floor (by positivity), floor_hundred_rpow l v hl h1 h2]

/-- The scenario XP table values for levels 1..10. -/
theorem c8_values :
    (xpTable c8System).map Prod.snd =
      [100, 282, 519, 800, 1118, 1469, 1852, 2262, 2700, 3162] := by
  rw [show (xpTable c8System).map Prod.snd =
      [curveXp c8Curve 1, curveXp c8Curve 2, curveXp c8Curve 3, curveXp c8Curve 4,
        curveXp c8Curve 5, curveXp c8Curve 6, curveXp c8Curve 7, curveXp c8Curve 8,
        curveXp c8Curve 9, curveXp c8Curve 10] from rfl,
    c8_curve_eval 1 100 (by norm_num) (by norm_num) (by norm_num),
    c8_curve_eval 2 282 (by norm_num) (by norm_num) (by norm_num),
    c8_curve_eval 3 519 (by norm_num) (by norm_num) (by norm_num),
    c8_curve_eval 4 800 (by norm_num) (by norm_num) (by norm_num),
    c8_curve_eval 5 1118 (by norm_num) (by norm_num) (by norm_num),
    c8_curve_eval 6 1469 (by norm_num) (by norm_num) (by norm_num),
    c8_curve_eval 7 1852 (by norm_num) (by norm_num) (by norm_num),
    c8_curve_eval 8 2262 (by norm_num) (by norm_num) (by norm_num),
    c8_curve_eval 9 2700 (by norm_num) (by norm_num) (by norm_num),
    c8_curve_eval 10 3162 (by norm_num) (by norm_num) (by norm_num)]
  norm_num

/-- The scenario total XP. -/
theorem totalXpNeeded_c8 : totalXpNeeded c8System = 14264 := by
  rw [show totalXpNeeded c8System = ((xpTable c8System).map Prod.snd).sum from rfl, c8_values]
  norm_num

/-! ### Claim C8: exponential XP table, totals, and the `max_level=10` scenario -/

/-- C8 (amended): for an exponential-curve system whose
`base_xp * level_multiplier` is nonnegative — so that Python `int()`
truncation coincides with `floor` — every table entry for `l` in
`1..max_level` is `floor(base_xp * l**exponent * level_multiplier)`;
`total_xp_needed` is the sum of the table values over `1..max_level`;
`get_level_range_xp(1, max_level)` equals `total_xp_needed`; and in the
scenario (`max_level=10`, `base_xp=100`, `exponent=1.5`,
`level_multiplier=1.0`) the table values are
`[100, 282, 519, 800, 1118, 1469, 1852, 2262, 2700, 3162]`, the total is the
literal sum of `floor(100 * l**1.5)` over `l=1..10`, `get_level_range_xp(1, 10)`
equals the total, and the total is 14264. -/
theorem leveling_exponential_table (s : LevelingSystem)
    (hct : s.xp_curve.curve_type = "exponential")
    (hnn : (0 : ℝ) ≤ (s.xp_curve.base_xp : ℝ) * s.xp_curve.level_multiplier) :
    (∀ l : ℕ, 1 ≤ l → l ≤ s.max_level →
        dictLookup (xpTable s) l =
          some ⌊(s.xp_curve.base_xp : ℝ) * (l : ℝ) ^ s.xp_curve.exponent *
            s.xp_curve.level_multiplier⌋) ∧
      totalXpNeeded s =
        ((List.range s.max_level).map fun i => (dictLookup (xpTable s) (i + 1)).getD 0).sum ∧
      getLevelRangeXp s 1 s.max_level = totalXpNeeded s ∧
      (xpTable c8System).map Prod.snd =
        [100, 282, 519, 800, 1118, 1469, 1852, 2262, 2700, 3162] ∧
      totalXpNeeded c8System =
        ((List.range 10).map fun i => ⌊(100 : ℝ) * ((i + 1 : ℕ) : ℝ) ^ (1.5 : ℝ)⌋).sum ∧
      getLevelRangeXp c8System 1 10 = totalXpNeeded c8System ∧
      totalXpNeeded c8System = 14264 := by
  refine ⟨?_, totalXpNeeded_eq_lookup_sum s, getLevelRangeXp_full s, c8_values, ?_, ?_,
    totalXpNeeded_c8⟩
  · intro l hl1 hl2
    rw [dictLookup_xpTable, if_pos ⟨hl1, hl2⟩]
    congr 1
    unfold curveXp
    rw [if_pos hct]
    unfold exponentialCurve
    have h0 : (0 : ℝ) ≤ (l : ℝ) ^ s.xp_curve.exponent := Real.rpow_nonneg (by positivity) _
    rw [pyInt_eq_floor (by nlinarith [mul_nonneg hnn h0])]
  · rw [totalXpNeeded_c8,
      show ((List.range 10).map fun i => ⌊(100 : ℝ) * ((i + 1 : ℕ) : ℝ) ^ (1.5 : ℝ)⌋) =
        [⌊(100 : ℝ) * ((1 : ℕ) : ℝ) ^ (1.5 : ℝ)⌋, ⌊(100 : ℝ) * ((2 : ℕ) : ℝ) ^ (1.5 : ℝ)⌋,
          ⌊(100 : ℝ) * ((3 : ℕ) : ℝ) ^ (1.5 : ℝ)⌋, ⌊(100 : ℝ) * ((4 : ℕ) : ℝ) ^ (1.5 : ℝ)⌋,
          ⌊(100 : ℝ) * ((5 : ℕ) : ℝ) ^ (1.5 : ℝ)⌋, ⌊(100 : ℝ) * ((6 : ℕ) : ℝ) ^ (1.5 : ℝ)⌋,
          ⌊(100 : ℝ) * ((7 : ℕ) : ℝ) ^ (1.5 : ℝ)⌋, ⌊(100 : ℝ) * ((8 : ℕ) : ℝ) ^ (1.5 : ℝ)⌋,
          ⌊(100 : ℝ) * ((9 : ℕ) : ℝ) ^ (1.5 : ℝ)⌋,
          ⌊(100 : ℝ) * ((10 : ℕ) : ℝ) ^ (1.5 : ℝ)⌋] from rfl,
      floor_hundred_rpow 1 100 (by norm_num) (by norm_num) (by norm_num),
      floor_hundred_rpow 2 282 (by norm_num) (by norm_num) (by norm_num),
      floor_hundred_rpow 3 519 (by norm_num) (by norm_num) (by norm_num),
      floor_hundred_rpow 4 800 (by norm_num) (by norm_num) (by norm_num),
      floor_hundred_rpow 5 1118 (by norm_num) (by norm_num) (by norm_num),
      floor_hundred_rpow 6 1469 (by norm_num) (by norm_num) (by norm_num),
      floor_hundred_rpow 7 1852 (by norm_num) (by norm_num) (by norm_num),
      floor_hundred_rpow 8 2262 (by norm_num) (by norm_num) (by norm_num),
      floor_hundred_rpow 9 2700 (by norm_num) (by norm_num) (by norm_num),
      floor_hundred_rpow 10 3162 (by norm_num) (by norm_num) (by norm_num)]
    norm_num
  · exact getLevelRangeXp_full c8System

/-- An exponential system with negative `base_xp`, on which `int()` differs
from `floor`. -/
noncomputable def c8Bad : LevelingSystem := ⟨2, ⟨"exponential", -100, 1.5, 1⟩, defaultBudget⟩

/-- C8 counterexample: the claim reads the truncation `int(...)` as `floor`.
With `base_xp = -100`, `exponent = 1.5`, level 2, the exact value is
`-200 * sqrt 2 = -282.84...`: Python `int()` truncates toward zero and the
stored table entry is `-282`, while `floor` gives `-283`. -/
theorem leveling_int_not_floor_cex :
    dictLookup (xpTable c8Bad) 2 = some (-282) ∧
      ⌊(c8Bad.xp_curve.base_xp : ℝ) * ((2 : ℕ) : ℝ) ^ c8Bad.xp_curve.exponent *
        c8Bad.xp_curve.level_multiplier⌋ = -283 := by
  have h283 : Real.sqrt 80000 < 283 := by
    have h := Real.sqrt_lt_sqrt (by norm_num : (0 : ℝ) ≤ 80000)
      (by norm_num : (80000 : ℝ) < 283 ^ 2)
    rwa [Real.sqrt_sq (by norm_num : (0 : ℝ) ≤ 283)] at h
  have h282 : (282 : ℝ) < Real.sqrt 80000 := by
    have h := Real.sqrt_lt_sqrt (by norm_num : (0 : ℝ) ≤ 282 ^ 2)
      (by norm_num : (282 : ℝ) ^ 2 < 80000)
    rwa [Real.sqrt_sq (by norm_num : (0 : ℝ) ≤ 282)] at h
  have hexpr : (c8Bad.xp_curve.base_xp : ℝ) * ((2 : ℕ) : ℝ) ^ c8Bad.xp_curve.exponent *
      c8Bad.xp_curve.level_multiplier = -(Real.sqrt 80000) := by
    rw [show c8Bad.xp_curve.exponent = (1.5 : ℝ) from rfl, rpow_three_half 2 (by norm_num),
      show (80000 : ℝ) = 200 ^ 2 * 2 by norm_num, Real.sqrt_mul (by positivity),
      Real.sqrt_sq (by norm_num : (0 : ℝ) ≤ 200),
      show c8Bad.xp_curve.base_xp = (-100 : ℤ) from rfl,
      show c8Bad.xp_curve.level_multiplier = (1 : ℝ) from rfl]
    push_cast
    ring
  constructor
  · rw [dictLookup_xpTable, if_pos (by constructor <;> decide)]
    congr 1
    rw [show curveXp c8Bad.xp_curve 2 = exponentialCurve c8Bad.xp_curve 2 from if_pos rfl]
    unfold exponentialCurve
    rw [hexpr, pyInt_eq_ceil (by push_neg; linarith), Int.ceil_neg]
    have hfl : ⌊Real.sqrt 80000⌋ = 282 := by
      rw [Int.floor_eq_iff]
      constructor
      · push_cast
        linarith
      · push_cast
        linarith
    rw [hfl]
  · rw [hexpr, Int.floor_neg]
    have hcl : ⌈Real.sqrt 80000⌉ = 283 := by
      rw [Int.ceil_eq_iff]
      constructor
      · push_cast
        linarith
      · push_cast
        linarith
    rw [hcl]

theorem leveling_exponential_table_witness :
    c8System.xp_curve.curve_type = "exponential" ∧
      (0 : ℝ) ≤ (c8System.xp_curve.base_xp : ℝ) * c8System.xp_curve.level_multiplier ∧
      dictLookup (xpTable c8System) 3 =
        some ⌊(c8System.xp_curve.base_xp : ℝ) * ((3 : ℕ) : ℝ) ^ c8System.xp_curve.exponent *
          c8System.xp_curve.level_multiplier⌋ ∧
      totalXpNeeded c8System = 14264 := by
  have h := leveling_exponential_table c8System rfl (by norm_num [c8System, c8Curve])
  exact ⟨rfl, by norm_num [c8System, c8Curve], h.1 3 (by norm_num) (by norm_num [c8System]),
    h.2.2.2.2.2.2⟩

/-! ### Claim C9: content budget conservation -/

/-- C9 (amended): the sum of the four `total_xp` values of
`calculate_content_requirements` is at most `total_xp_needed`, provided
`total_xp_needed` is nonnegative, the four budget percentages are
nonnegative, and they sum to at most 1 — conditions the claim's "because"
silently assumes; `ContentBudget` does not enforce them. -/
theorem content_budget_conservation (s : LevelingSystem)
    (h0 : 0 ≤ totalXpNeeded s)
    (hm : 0 ≤ s.content_budget.main_quests_percent)
    (hq : 0 ≤ s.content_budget.side_quests_percent)
    (hd : 0 ≤ s.content_budget.dungeons_percent)
    (he : 0 ≤ s.content_budget.events_percent)
    (hsum : s.content_budget.main_quests_percent + s.content_budget.side_quests_percent +
        s.content_budget.dungeons_percent + s.content_budget.events_percent ≤ 1) :
    ((contentRequirements s).map fun kv => kv.2.total_xp).sum ≤ totalXpNeeded s := by
  have hT : (0 : ℝ) ≤ (totalXpNeeded s : ℝ) := by exact_mod_cast h0
  have hle : ∀ p : ℚ, 0 ≤ p → ((categoryXp s p : ℝ)) ≤ (totalXpNeeded s : ℝ) * (p : ℝ) := by
    intro p hp
    unfold categoryXp
    rw [pyInt_eq_floor (mul_nonneg hT (by exact_mod_cast hp))]
    exact Int.floor_le _
  have h1 := hle _ hm
  have h2 := hle _ hq
  have h3 := hle _ hd
  have h4 := hle _ he
  have hps : ((s.content_budget.main_quests_percent : ℝ)) +
      (s.content_budget.side_quests_percent : ℝ) + (s.content_budget.dungeons_percent : ℝ) +
      (s.content_budget.events_percent : ℝ) ≤ 1 := by exact_mod_cast hsum
  have hmul := mul_le_mul_of_nonneg_left hps hT
  have hreal : ((categoryXp s s.content_budget.main_quests_percent : ℝ)) +
      (categoryXp s s.content_budget.side_quests_percent : ℝ) +
      (categoryXp s s.content_budget.dungeons_percent : ℝ) +
      (categoryXp s s.content_budget.events_percent : ℝ) ≤ (totalXpNeeded s : ℝ) := by
    nlinarith [h1, h2, h3, h4, hmul]
  have hint : categoryXp s s.content_budget.main_quests_percent +
      categoryXp s s.content_budget.side_quests_percent +
      categoryXp s s.content_budget.dungeons_percent +
      categoryXp s s.content_budget.events_percent ≤ totalXpNeeded s := by
    exact_mod_cast hreal
  rw [show ((contentRequirements s).map fun kv => kv.2.total_xp) =
      [categoryXp s s.content_budget.main_quests_percent,
        categoryXp s s.content_budget.side_quests_percent,
        categoryXp s s.content_budget.dungeons_percent,
        categoryXp s s.content_budget.events_percent] from rfl]
  simp only [List.sum_cons, List.sum_nil, add_zero]
  linarith

/-- A system on which the unrestricted claim fails: `max_level=1` with the
scenario curve and every budget percentage set to `1.0`. -/
noncomputable def c9Bad : LevelingSystem := ⟨1, c8Curve, ⟨1, 1, 1, 1, 1⟩⟩

/-- C9 counterexample: with all four percentages at `1.0` (pydantic does not
bound them), each category's `total_xp` equals `total_xp_needed = 100`, so
the four sum to 400, which exceeds `total_xp_needed`. -/
theorem content_budget_overflow_cex :
    ¬ (((contentRequirements c9Bad).map fun kv => kv.2.total_xp).sum ≤ totalXpNeeded c9Bad) := by
  have htot : totalXpNeeded c9Bad = 100 := by
    rw [show totalXpNeeded c9Bad = ((xpTable c9Bad).map Prod.snd).sum from rfl,
      show (xpTable c9Bad).map Prod.snd = [curveXp c8Curve 1] from rfl,
      c8_curve_eval 1 100 (by norm_num) (by norm_num) (by norm_num)]
    norm_num
  have hcat : categoryXp c9Bad 1 = 100 := by
    unfold categoryXp
    rw [htot, show ((100 : ℤ) : ℝ) * ((1 : ℚ) : ℝ) = ((100 : ℤ) : ℝ) by push_cast; ring,
      pyInt_eq_floor (by positivity), Int.floor_intCast]
  rw [show ((contentRequirements c9Bad).map fun kv => kv.2.total_xp) =
      [categoryXp c9Bad 1, categoryXp c9Bad 1, categoryXp c9Bad 1, categoryXp c9Bad 1] from rfl,
    htot]
  simp only [List.sum_cons, List.sum_nil, add_zero, hcat]
  norm_num

theorem content_budget_conservation_witness :
    0 ≤ totalXpNeeded c8System ∧
      c8System.content_budget.main_quests_percent +
          c8System.content_budget.side_quests_percent +
          c8System.content_budget.dungeons_percent +
          c8System.content_budget.events_percent ≤ 1 ∧
      ((contentRequirements c8System).map fun kv => kv.2.total_xp).sum ≤
        totalXpNeeded c8System := by
  have h0 : 0 ≤ totalXpNeeded c8System := by
    rw [totalXpNeeded_c8]
    norm_num
  exact ⟨h0, by norm_num [c8System, defaultBudget],
    content_budget_conservation c8System h0 (by norm_num [c8System, defaultBudget])
      (by norm_num [c8System, defaultBudget]) (by norm_num [c8System, defaultBudget])
      (by norm_num [c8System, defaultBudget]) (by norm_num [c8System, defaultBudget])⟩

end GameDataGen
